import Mathlib

/-!
# audio-converter: a shallow embedding of the HTTP handlers, the conversion
pipeline and the housekeeping sweep

Go strings are Lean strings, handled through their character lists.  The
filesystem is an existence map from paths to booleans; the wall clock, the
HTTP client, the two external tools and the failures of the system calls
(`os.Create`, `io.Copy`, `os.WriteFile`, `os.Stat`, `os.Remove`) are parameters
of the model, so every theorem holds for all of their behaviours.  Logging is
left out: it does not influence any returned value or any file of the upload
and output directories.
-/

namespace AudioConverter

/-! ## Strings -/

/-- Go `strings.Contains` on character lists: `sub` starts at some position of `s`. -/
def containsChars (s sub : List Char) : Bool :=
  match s with
  | [] => sub.isPrefixOf []
  | c :: cs => sub.isPrefixOf (c :: cs) || containsChars cs sub

/-- Go `strings.Contains(s, substr)`. -/
def stringsContains (s substr : String) : Bool :=
  containsChars s.data substr.data

/-- Go `strings.HasPrefix(s, p)`. -/
def stringsHasPrefix (s p : String) : Bool :=
  p.data.isPrefixOf s.data

/-- Go `strings.HasSuffix(s, p)`. -/
def stringsHasSuffix (s p : String) : Bool :=
  p.data.reverse.isPrefixOf s.data.reverse

/-! ## Paths (Unix flavour of `path/filepath`) -/

/-- Split a path at every slash. -/
def splitSlash : List Char → List (List Char)
  | [] => [[]]
  | c :: cs =>
    match splitSlash cs with
    | [] => [[c]]
    | x :: xs => if c = '/' then [] :: x :: xs else (c :: x) :: xs

/-- One step of `filepath.Clean` on a stack of kept components (top first). -/
def cleanStep (rooted : Bool) (out : List (List Char)) (c : List Char) : List (List Char) :=
  if c = [] ∨ c = ['.'] then out
  else if c = ['.', '.'] then
    match out with
    | [] => if rooted then [] else [c]
    | top :: rest => if top = ['.', '.'] then c :: top :: rest else rest
  else c :: out

/-- Join components with single slashes. -/
def joinSlash : List (List Char) → List Char
  | [] => []
  | [x] => x
  | x :: y :: ys => x ++ '/' :: joinSlash (y :: ys)

/-- Go `filepath.Clean`: drop empty and `.` components, resolve `..`, keep a
leading slash, and return `.` for an empty result. -/
def filepathClean (path : List Char) : List Char :=
  let rooted := path.head? == some '/'
  let comps := ((splitSlash path).foldl (cleanStep rooted) []).reverse
  let body := joinSlash comps
  let res := if rooted then '/' :: body else body
  if res = [] then ['.'] else res

/-- Go `filepath.Join(dir, name)`: empty elements are ignored, the rest is
joined with a slash and cleaned; all empty gives the empty string. -/
def filepathJoin (dir name : String) : String :=
  if dir = "" then
    if name = "" then "" else ⟨filepathClean name.data⟩
  else if name = "" then ⟨filepathClean dir.data⟩
  else ⟨filepathClean (dir.data ++ '/' :: name.data)⟩

/-- Scan for `filepath.Ext` on the reversed path: the characters after the last
dot of the last component, reversed, or nothing when a slash comes first. -/
def extRev : List Char → List Char → Option (List Char)
  | [], _ => none
  | c :: cs, acc =>
    if c = '/' then none
    else if c = '.' then some ('.' :: acc)
    else extRev cs (c :: acc)

/-- Go `filepath.Ext(path)`: the suffix beginning at the final dot of the final
element of the path, empty if there is no dot. -/
def filepathExt (path : String) : String :=
  match extRev path.data.reverse [] with
  | some e => ⟨e⟩
  | none => ""

/-! ## Formatting (`fmt.Sprintf` verbs used by the program) -/

/-- The verb `%d` at a natural number. -/
def fmtNat (n : Nat) : List Char := Nat.toDigits 10 n

/-- The verb `%d` at an integer. -/
def fmtD (i : Int) : List Char :=
  match i with
  | Int.ofNat n => fmtNat n
  | Int.negSucc n => '-' :: fmtNat (n + 1)

/-- The verb `%02d` at an integer: `%d` padded with zeros on the left to width
two, the sign counting for the width and staying in front. -/
def fmt02d (i : Int) : List Char :=
  match i with
  | Int.ofNat n => if (fmtNat n).length < 2 then '0' :: fmtNat n else fmtNat n
  | Int.negSucc n => '-' :: fmtNat (n + 1)

/-! ## HTTP responses -/

/-- What a handler sends back: the status code and the JSON error text (empty
for a file transfer). -/
structure Response where
  status : Nat
  error : String
  deriving DecidableEq, Repr

/-- A filesystem access made while serving a request. -/
inductive FsAccess where
  | stat (path : String)
  | serve (path : String)
  deriving DecidableEq, Repr

/-- The filesystem as the conversion code and the handlers see it: which paths
name an existing file.  Faults of the system calls (a name that is too long, a
missing permission, a path through a regular file, a busy file) are separate
parameters: `statFault` for `os.Stat`, `removeOk` for `os.Remove`. -/
abbrev FS := String → Bool

/-- The error of `os.Stat` as far as the program inspects it: a not-exist error
(ENOENT), or any other error (ENAMETOOLONG, EACCES, ENOTDIR, EINVAL). -/
inductive StatErr where
  | notExist
  | other
  deriving DecidableEq, Repr

/-- Go `os.Stat(path)`: `none` is a nil error.  At a path where `statFault`
holds the call fails with an error that is not a not-exist error, whether or
not a file is there. -/
def osStat (statFault : String → Bool) (fs : FS) (path : String) : Option StatErr :=
  if statFault path then some StatErr.other
  else if fs path then none else some StatErr.notExist

/-- Go `os.IsNotExist(err)`. -/
def osIsNotExist (err : Option StatErr) : Bool :=
  match err with
  | some StatErr.notExist => true
  | some StatErr.other => false
  | none => false

/-- Go `os.Remove(path)` with its error dropped: the file is gone when the call
succeeds (`ok`), and the filesystem is as before when it fails. -/
def osRemove (ok : Bool) (fs : FS) (path : String) : FS :=
  if ok then fun q => if q = path then false else fs q else fs

/-- A file comes into existence at `path` (`os.Create`, `os.WriteFile`). -/
def fsCreate (fs : FS) (path : String) : FS :=
  fun q => if q = path then true else fs q

/-- Output directory of the HTTP layer (`silkDir` in `main.go`). -/
def silkDir : String := "./outputs"

/-- Upload directory of the HTTP layer (`uploadDir` in `main.go`). -/
def uploadDir : String := "./uploads"

/-- Status codes of `net/http` used by the handlers. -/
def StatusBadRequest : Nat := 400
def StatusNotFound : Nat := 404
def StatusInternalServerError : Nat := 500
def StatusNotImplemented : Nat := 501

/-- The guard of `handleDownload`, in terms of the characters of the name. -/
def unsafeName (filename : String) : Prop :=
  ['.', '.'] <:+: filename.data ∨ '/' ∈ filename.data ∨ '\\' ∈ filename.data

/-- The handler `handleDownload` of `main.go`.  `serveFile` stands for gin's
`c.File`, which answers from the file at the given path.  The second component
lists the filesystem accesses in the order they happen. -/
def handleDownload (serveFile : FS → String → Response) (statFault : String → Bool) (fs : FS)
    (filename : String) : Response × List FsAccess :=
  if filename = "" then
    (⟨StatusBadRequest, "未指定文件名"⟩, [])
  else if stringsContains filename ".." || stringsContains filename "/" ||
      stringsContains filename "\\" then
    (⟨StatusBadRequest, "无效的文件名"⟩, [])
  else
    let filePath := filepathJoin silkDir filename
    if osIsNotExist (osStat statFault fs filePath) then
      (⟨StatusNotFound, "文件不存在"⟩, [FsAccess.stat filePath])
    else
      (serveFile fs filePath, [FsAccess.stat filePath, FsAccess.serve filePath])

/-- gin's `c.ShouldBindJSON(&req)` for the request struct of `handleTTS`, whose
only field is `Text string` tagged `json:"text" binding:"required"`, on the
bytes of the body.  `decode` stands for the JSON decoder filling `Text`; on an
empty body the decoder fails with `io.EOF`, and after decoding the validator
rejects a `Text` left at its zero value. -/
def shouldBindJSON (decode : String → Except String String) (body : String) :
    Except String String :=
  if body = "" then Except.error "EOF"
  else
    match decode body with
    | Except.error e => Except.error e
    | Except.ok text =>
      if text = "" then Except.error "Field validation for 'Text' failed on the 'required' tag"
      else Except.ok text

/-- The handler `handleTTS` of `main.go`; `bind` stands for `c.ShouldBindJSON`
applied to the body of the request. -/
def handleTTS (bind : String → Except String String) (body : String) : Response :=
  match bind body with
  | Except.error e => ⟨StatusBadRequest, "无效的请求参数: " ++ e⟩
  | Except.ok _ => ⟨StatusNotImplemented, "TTS功能尚未实现"⟩

/-! ## The conversion service (`services/audio_service.go`) -/

/-- A reading of `time.Now()`: the calendar fields the accessors return (local
time), and the value of `UnixNano()`. -/
structure GoTime where
  year : Int
  month : Nat
  day : Nat
  hour : Nat
  minute : Nat
  second : Nat
  nanosecond : Nat
  unixNano : Int
  deriving DecidableEq, Repr

/-- The struct `AudioService`. -/
structure AudioService where
  UploadDir : String
  SilkDir : String
  FfmpegPath : String
  EncoderPath : String
  deriving DecidableEq, Repr

/-- The dynamic argument of `ConvertToSilk` (`interface{}`), by the cases of its
type switch. -/
inductive Input where
  | str (v : String)
  | bytes (content : List Nat)
  | other

/-- An external command: executable and argument list (`exec.Command`). -/
structure Cmd where
  name : String
  args : List String
  deriving DecidableEq, Repr

/-- How running a command ends.  A command whose pipes or start fail never
runs; one that ran leaves the filesystem in the state `after`. -/
inductive ProcOutcome where
  | stdoutPipeErr
  | stderrPipeErr
  | startErr
  | waitErr (after : FS)
  | exited (after : FS)

/-- An HTTP response as `http.Get` returns it. -/
structure HttpResponse where
  status : Nat
  body : List Nat

/-- Everything outside the program that one call of `ConvertToSilk` meets. -/
structure Env where
  /-- `http.Get(url)`; `none` is a transport error. -/
  httpGet : String → Option HttpResponse
  /-- Whether `os.Create(path)` succeeds. -/
  createOk : String → Bool
  /-- Whether `io.Copy` into the file at `path` succeeds. -/
  copyOk : String → Bool
  /-- Whether `os.WriteFile(path, ..)` succeeds. -/
  writeOk : String → Bool
  /-- The clock read while staging the input. -/
  nowStage : GoTime
  /-- The clock read for the output file name. -/
  nowOutput : GoTime
  /-- The clock read for the PCM file name. -/
  nowPcm : GoTime
  /-- Whether `runtime.GOOS` is `windows`. -/
  windows : Bool
  /-- Running a command from a filesystem state. -/
  run : Cmd → FS → ProcOutcome
  /-- Whether `os.Remove(path)` succeeds. -/
  removeOk : String → Bool
  /-- Whether `os.Stat(path)` fails with an error other than not-exist. -/
  statFault : String → Bool

/-- The method `downloadFromURL`.  The library error it passes on is named by
the message the method logs with it.  The status of the response is not read;
a failed copy leaves the created file behind. -/
def downloadFromURL (s : AudioService) (env : Env) (url : String) (fs : FS) :
    Except String String × FS :=
  match env.httpGet url with
  | none => (Except.error "HTTP请求失败", fs)
  | some _resp =>
    let filename := String.mk (fmtD env.nowStage.unixNano) ++ filepathExt url
    let filepath := filepathJoin s.UploadDir filename
    if env.createOk filepath then
      let fs1 := fsCreate fs filepath
      if env.copyOk filepath then (Except.ok filepath, fs1)
      else (Except.error "保存文件失败", fs1)
    else (Except.error "创建文件失败", fs)

/-- The method `saveUploadedFile`.  A failed `os.WriteFile` is taken to leave no
file. -/
def saveUploadedFile (s : AudioService) (env : Env) (_content : List Nat) (fs : FS) :
    Except String String × FS :=
  let filename := String.mk (fmtD env.nowStage.unixNano) ++ ".wav"
  let filepath := filepathJoin s.UploadDir filename
  if env.writeOk filepath then (Except.ok filepath, fsCreate fs filepath)
  else (Except.error "写入文件失败", fs)

/-- The type switch that opens `ConvertToSilk` (lines 82 to 107): the input
path, or the error the method returns at once. -/
def resolveInput (s : AudioService) (env : Env) (input : Input) (fs : FS) :
    Except String String × FS :=
  match input with
  | Input.str v =>
    if stringsHasPrefix v "http" then downloadFromURL s env v fs
    else (Except.ok v, fs)
  | Input.bytes content => saveUploadedFile s env content fs
  | Input.other => (Except.error "不支持的输入类型", fs)

/-- The output file name of `ConvertToSilk` (lines 110 to 113). -/
def outputFilename (now : GoTime) : String :=
  ⟨fmtD now.year ++ fmt02d now.month ++ fmt02d now.day ++
    '_' :: (fmt02d now.hour ++ fmt02d now.minute ++ fmt02d now.second ++ ".silk".data)⟩

/-- The PCM file name of `ConvertToSilk` (line 118). -/
def pcmFilename (now : GoTime) : String :=
  ⟨fmtD now.unixNano ++ ".pcm".data⟩

/-- The transcoder command of `ConvertToSilk` (lines 123 to 128). -/
def ffmpegCmd (s : AudioService) (inputPath pcmPath : String) : Cmd :=
  ⟨s.FfmpegPath, ["-i", inputPath, "-f", "s16le", "-acodec", "pcm_s16le",
    "-ar", "24000", "-ac", "1", pcmPath]⟩

/-- The encoder command of `ConvertToSilk` (lines 157 to 163). -/
def encoderCmd (s : AudioService) (env : Env) (pcmPath outputPath : String) : Cmd :=
  if env.windows then ⟨s.EncoderPath, [pcmPath, outputPath, "-tencent"]⟩
  else ⟨s.EncoderPath, [pcmPath, outputPath, "-tencent"]⟩

/-- What a call of `ConvertToSilk` leaves behind: the returned pair (file name
or error), the filesystem, and the commands that were started, in order. -/
structure ConvertResult where
  ret : Except String String
  fs : FS
  started : List Cmd

/-- The method `ConvertToSilk`.  Errors are named by the fixed part of their
message.  The two goroutines that copy the tool output to the log are left
out.  The errors of the `os.Remove` calls are dropped, as in the source. -/
def ConvertToSilk (s : AudioService) (env : Env) (input : Input) (fs : FS) : ConvertResult :=
  match resolveInput s env input fs with
  | (Except.error e, fs1) => ⟨Except.error e, fs1, []⟩
  | (Except.ok inputPath, fs1) =>
    let outName := outputFilename env.nowOutput
    let outputPath := filepathJoin s.SilkDir outName
    let pcmPath := filepathJoin s.UploadDir (pcmFilename env.nowPcm)
    let cmd := ffmpegCmd s inputPath pcmPath
    match env.run cmd fs1 with
    | ProcOutcome.stdoutPipeErr => ⟨Except.error "创建stdout管道失败", fs1, []⟩
    | ProcOutcome.stderrPipeErr => ⟨Except.error "创建stderr管道失败", fs1, []⟩
    | ProcOutcome.startErr => ⟨Except.error "启动ffmpeg失败", fs1, []⟩
    | ProcOutcome.waitErr fs2 =>
      ⟨Except.error "PCM转换失败", osRemove (env.removeOk pcmPath) fs2 pcmPath, [cmd]⟩
    | ProcOutcome.exited fs2 =>
      let enc := encoderCmd s env pcmPath outputPath
      match env.run enc fs2 with
      | ProcOutcome.stdoutPipeErr =>
        ⟨Except.error "创建stdout管道失败", osRemove (env.removeOk pcmPath) fs2 pcmPath, [cmd]⟩
      | ProcOutcome.stderrPipeErr =>
        ⟨Except.error "创建stderr管道失败", osRemove (env.removeOk pcmPath) fs2 pcmPath, [cmd]⟩
      | ProcOutcome.startErr =>
        ⟨Except.error "启动encoder失败", osRemove (env.removeOk pcmPath) fs2 pcmPath, [cmd]⟩
      | ProcOutcome.waitErr fs3 =>
        ⟨Except.error "SILK转换失败", osRemove (env.removeOk pcmPath) fs3 pcmPath, [cmd, enc]⟩
      | ProcOutcome.exited fs3 =>
        let fs4 := osRemove (env.removeOk inputPath)
          (osRemove (env.removeOk pcmPath) fs3 pcmPath) inputPath
        if osIsNotExist (osStat env.statFault fs4 outputPath) then
          ⟨Except.error "转换失败：输出文件未生成", fs4, [cmd, enc]⟩
        else ⟨Except.ok outName, fs4, [cmd, enc]⟩

/-- The intermediate PCM path of a call (line 119). -/
def pcmPathOf (s : AudioService) (env : Env) : String :=
  filepathJoin s.UploadDir (pcmFilename env.nowPcm)

/-- The output path of a call (line 114). -/
def outputPathOf (s : AudioService) (env : Env) : String :=
  filepathJoin s.SilkDir (outputFilename env.nowOutput)

/-! ## Housekeeping (`cleanDir` in `main.go`) -/

/-- A directory entry as `os.ReadDir` lists it; `modTime` is the modification
time (nanoseconds since the epoch) from `Info()`, `none` when `Info()` fails. -/
structure DirEntry where
  name : String
  isDir : Bool
  modTime : Option Int
  deriving DecidableEq, Repr

/-- The retention window `cacheTime`: 24 hours, in nanoseconds. -/
def cacheTime : Int := 24 * 3600 * 1000000000

/-- Largest and smallest `time.Duration` (an int64 count of nanoseconds). -/
def maxDuration : Int := 2 ^ 63 - 1
def minDuration : Int := -(2 ^ 63)

/-- Go `t.Sub(u)` on instants in nanoseconds: the difference, saturated to the
range of `time.Duration`. -/
def timeSub (t u : Int) : Int :=
  if t - u > maxDuration then maxDuration
  else if t - u < minDuration then minDuration
  else t - u

/-- The body of the loop of `cleanDir` for one listed entry; the state is the
directory content and the count of removed files. -/
def cleanEntry (removeOk : String → Bool) (now : Int) (dir : String)
    (st : List DirEntry × Nat) (file : DirEntry) : List DirEntry × Nat :=
  if file.isDir then st
  else
    let path := filepathJoin dir file.name
    match file.modTime with
    | none => st
    | some mt =>
      if timeSub now mt > cacheTime then
        if removeOk path then (st.1.filter (fun e => e.name != file.name), st.2 + 1)
        else st
      else st

/-- The function `cleanDir`: `listing` is the result of `os.ReadDir(dir)`
(`none` for an error), `removeOk` tells whether `os.Remove` succeeds at a
path.  Returns the directory content afterwards and the count. -/
def cleanDir (removeOk : String → Bool) (now : Int) (dir : String)
    (listing : Option (List DirEntry)) (content : List DirEntry) : List DirEntry × Nat :=
  match listing with
  | none => (content, 0)
  | some files => files.foldl (cleanEntry removeOk now dir) (content, 0)

/-- An entry is past the retention window at `now`: it is not a directory,
its modification time is known, and `now` minus that time exceeds `cacheTime`
(exact integer arithmetic). -/
def expired (now : Int) (e : DirEntry) : Bool :=
  !e.isDir && (match e.modTime with
    | some mt => decide (now - mt > cacheTime)
    | none => false)

/-! ## Auxiliary notions and sample values for the conversion service -/

deriving instance DecidableEq for Except

/-- A tool run leaves the file at `p` in place: if the tool ran, a file present
before is present after. -/
def toolKeeps (o : ProcOutcome) (before : FS) (p : String) : Prop :=
  match o with
  | ProcOutcome.waitErr after => before p = true → after p = true
  | ProcOutcome.exited after => before p = true → after p = true
  | _ => True

/-- The filesystem with no file at all. -/
def emptyFS : FS := fun _ => false

/-- A service on Unix paths. -/
def demoService : AudioService :=
  ⟨"/srv/uploads", "/srv/outputs", "/usr/bin/ffmpeg", "/usr/local/bin/encoder"⟩

/-- A clock reading: 2024-03-07 09:05:01, local time. -/
def demoTime : GoTime := ⟨2024, 3, 7, 9, 5, 1, 0, 1709802301000000000⟩

/-- Both tools run and exit with status 0; the transcoder writes its last
argument, the encoder its second argument. -/
def toolsSucceed : Cmd → FS → ProcOutcome :=
  fun c f =>
    if c.name = "/usr/bin/ffmpeg" then ProcOutcome.exited (fsCreate f (c.args.getLastD ""))
    else ProcOutcome.exited (fsCreate f (c.args.getD 1 ""))

/-- The transcoder runs and exits with a non-zero status, writing nothing. -/
def transcoderFails : Cmd → FS → ProcOutcome :=
  fun _ f => ProcOutcome.waitErr f

/-- The transcoder cannot be started. -/
def transcoderNoStart : Cmd → FS → ProcOutcome :=
  fun _ _ => ProcOutcome.startErr

/-- The transcoder succeeds and writes its last argument; the encoder exits with
status 0 without writing anything. -/
def encoderSilent : Cmd → FS → ProcOutcome :=
  fun c f =>
    if c.name = "/usr/bin/ffmpeg" then ProcOutcome.exited (fsCreate f (c.args.getLastD ""))
    else ProcOutcome.exited f

/-- An environment in which every file operation succeeds and the clock stands
at `demoTime`. -/
def demoEnv (httpGet : String → Option HttpResponse) (run : Cmd → FS → ProcOutcome) : Env :=
  ⟨httpGet, fun _ => true, fun _ => true, fun _ => true, demoTime, demoTime, demoTime, false, run,
    fun _ => true, fun _ => false⟩

/-- The characters an output file name is made of: digits, the minus sign of a
negative year, the underscore, and the letters of the extension. -/
def nameChar (c : Char) : Bool :=
  c.isDigit || c == '-' || c == '_' || c == '.' || c == 's' || c == 'i' || c == 'l' || c == 'k'

/-- The path `downloadFromURL` writes to (lines 240 and 241). -/
def downloadPath (s : AudioService) (env : Env) (url : String) : String :=
  filepathJoin s.UploadDir (String.mk (fmtD env.nowStage.unixNano) ++ filepathExt url)

/-- Whether the command was started and waited for. -/
def ProcOutcome.ran (o : ProcOutcome) : Bool :=
  match o with
  | ProcOutcome.waitErr _ => true
  | ProcOutcome.exited _ => true
  | _ => false

/-- An HTTP client that answers every request with status 200 and a short body. -/
def httpOk : String → Option HttpResponse :=
  fun _ => some ⟨200, [82, 73, 70, 70]⟩

/-- An HTTP client that answers every request with status 404 and an HTML body. -/
def httpNotFound : String → Option HttpResponse :=
  fun _ => some ⟨404, [60, 104, 49, 62]⟩

/-- The value of a decimal digit character. -/
def charVal (c : Char) : Nat := c.toNat - 48

/-- The number a string of decimal digits denotes. -/
def ofDigitChars (l : List Char) : Nat :=
  l.foldl (fun a c => a * 10 + charVal c) 0

/-- The ranges of the calendar accessors of `time.Time`: `Month()` in 1..12,
`Day()` in 1..31, `Hour()` in 0..23, `Minute()` and `Second()` in 0..59. -/
def validTime (t : GoTime) : Prop :=
  1 ≤ t.month ∧ t.month ≤ 12 ∧ 1 ≤ t.day ∧ t.day ≤ 31 ∧
    t.hour ≤ 23 ∧ t.minute ≤ 59 ∧ t.second ≤ 59

/-- Two clock readings fall in the same calendar second of local time. -/
def sameSecond (t1 t2 : GoTime) : Prop :=
  t1.year = t2.year ∧ t1.month = t2.month ∧ t1.day = t2.day ∧
    t1.hour = t2.hour ∧ t1.minute = t2.minute ∧ t1.second = t2.second

instance (t : GoTime) : Decidable (validTime t) := by
  unfold validTime
  infer_instance

instance (t1 t2 : GoTime) : Decidable (sameSecond t1 t2) := by
  unfold sameSecond
  infer_instance

/-- The environment `demoEnv` with the clock for the output name at `t`. -/
def demoEnvAt (t : GoTime) (run : Cmd → FS → ProcOutcome) : Env :=
  ⟨fun _ => none, fun _ => true, fun _ => true, fun _ => true, t, t, t, false, run,
    fun _ => true, fun _ => false⟩

/-- One nanosecond after `demoTime`, in the same second. -/
def demoTimeLater : GoTime := ⟨2024, 3, 7, 9, 5, 1, 1, 1709802301000000001⟩

/-- One second after `demoTime`. -/
def demoTimeNextSecond : GoTime := ⟨2024, 3, 7, 9, 5, 2, 0, 1709802302000000000⟩

/-- A plain file name: not empty, without a slash, and neither `.` nor `..`. -/
def plainName (a : List Char) : Prop :=
  '/' ∉ a ∧ a ≠ [] ∧ a ≠ ['.'] ∧ a ≠ ['.', '.']

/-! ## The logger (`utils/logger.go`) -/

/-- `appendInt(b, n, width)` of package `time` at a natural number: the decimal
digits, padded with zeros on the left to `width`. -/
def fmtPadded (width n : Nat) : List Char :=
  List.replicate (width - (fmtNat n).length) '0' ++ fmtNat n

/-- The layout element `2006` of `time.Format`: the year, four digits wide, a
minus sign in front of a negative year. -/
def fmtYear (y : Int) : List Char :=
  match y with
  | Int.ofNat n => fmtPadded 4 n
  | Int.negSucc n => '-' :: fmtPadded 4 (n + 1)

/-- The log file name of `InitLogger` (line 70): `audio_converter_`, the date
in the layout `2006-01-02`, and `.log`. -/
def logFileName (now : GoTime) : String :=
  ⟨"audio_converter_".data ++ (fmtYear now.year ++ '-' :: (fmtPadded 2 now.month ++
    '-' :: (fmtPadded 2 now.day ++ ".log".data)))⟩

/-- The body of the loop of `CleanOldLogs` for one listed entry; the state is the
directory content and `cleanedCount`. -/
def cleanLogEntry (removeOk : String → Bool) (cutoff : Int) (logDir : String)
    (st : List DirEntry × Nat) (entry : DirEntry) : List DirEntry × Nat :=
  if entry.isDir then st
  else if !stringsHasPrefix entry.name "audio_converter_" then st
  else
    match entry.modTime with
    | none => st
    | some mt =>
      if mt < cutoff then
        let path := filepathJoin logDir entry.name
        if removeOk path then (st.1.filter (fun e => e.name != entry.name), st.2 + 1)
        else st
      else st

/-- The function `CleanOldLogs`.  `addDate t years months days` stands for
`t.AddDate(years, months, days)` on instants in nanoseconds, `listing` for the
result of `os.ReadDir(logDir)`, `removeOk` for the success of `os.Remove`.
Returns the error (`none` is nil), the directory content afterwards and the
count of removed files. -/
def CleanOldLogs (addDate : Int → Int → Int → Int → Int) (removeOk : String → Bool) (now : Int)
    (logDir : String) (listing : Option (List DirEntry)) (content : List DirEntry) :
    Option String × List DirEntry × Nat :=
  match listing with
  | none => (some "读取日志目录失败", content, 0)
  | some entries =>
    let cutoff := addDate now 0 0 (-7)
    let r := entries.foldl (cleanLogEntry removeOk cutoff logDir) (content, 0)
    (none, r.1, r.2)

/-- What `CleanOldLogs` takes for an old log file: not a directory, a name that
starts with `audio_converter_`, and a known modification time before the
cutoff. -/
def logExpired (cutoff : Int) (e : DirEntry) : Bool :=
  !e.isDir && stringsHasPrefix e.name "audio_converter_" && (match e.modTime with
    | some mt => decide (mt < cutoff)
    | none => false)

/-- `AddDate` for zero years and months in a location whose offset does not
change: a day is 24 hours. -/
def addDateFixedOffset (t _years _months days : Int) : Int :=
  t + days * (24 * 3600 * 1000000000)

/-- Ten days after the epoch, in nanoseconds. -/
def tenDays : Int := 10 * (24 * 3600 * 1000000000)

/-! ## Sample faults of the system calls -/

/-- The fault ENAMETOOLONG of Linux: some component of the path is longer than
255 bytes. -/
def nameTooLong (path : String) : Bool :=
  (splitSlash path.data).any (fun c => decide (255 < c.length))

/-- `http.ServeFile`, which gin's `c.File` calls: opening the file fails like
`os.Stat`; a not-exist error is answered with 404, another error with 500,
and a file that opens is sent with 200. -/
def httpServeFile (statFault : String → Bool) (fs : FS) (path : String) : Response :=
  match osStat statFault fs path with
  | none => ⟨200, ""⟩
  | some StatErr.notExist => ⟨StatusNotFound, "404 page not found"⟩
  | some StatErr.other => ⟨StatusInternalServerError, "500 Internal Server Error"⟩

/-- A file name of 256 letters `a`. -/
def longName : String := ⟨List.replicate 256 'a'⟩

/-- The transcoder runs, writes its last argument, and exits with a non-zero
status. -/
def transcoderWritesThenFails : Cmd → FS → ProcOutcome :=
  fun c f => ProcOutcome.waitErr (fsCreate f (c.args.getLastD ""))

/-- The environment `demoEnv` in which every `os.Remove` fails (a busy file or a
missing permission). -/
def demoEnvRemoveFails (run : Cmd → FS → ProcOutcome) : Env :=
  ⟨fun _ => none, fun _ => true, fun _ => true, fun _ => true, demoTime, demoTime, demoTime,
    false, run, fun _ => false, fun _ => false⟩

/-- The environment `demoEnv` in which `os.Stat` fails, with an error that is not
a not-exist error, at every path below `/srv/outputs`: the output directory is
a regular file (ENOTDIR). -/
def demoEnvOutputNotDir (run : Cmd → FS → ProcOutcome) : Env :=
  ⟨fun _ => none, fun _ => true, fun _ => true, fun _ => true, demoTime, demoTime, demoTime,
    false, run, fun _ => true, fun p => stringsHasPrefix p "/srv/outputs/"⟩

/-- The environment `demoEnv httpOk` in which `os.Create` fails. -/
def demoEnvCreateFails (run : Cmd → FS → ProcOutcome) : Env :=
  ⟨httpOk, fun _ => false, fun _ => true, fun _ => true, demoTime, demoTime, demoTime,
    false, run, fun _ => true, fun _ => false⟩

/-- The environment `demoEnv httpOk` in which `io.Copy` fails. -/
def demoEnvCopyFails (run : Cmd → FS → ProcOutcome) : Env :=
  ⟨httpOk, fun _ => true, fun _ => false, fun _ => true, demoTime, demoTime, demoTime,
    false, run, fun _ => true, fun _ => false⟩

/-! ## Lemmas on strings -/

theorem containsChars_spec (s sub : List Char) :
    containsChars s sub = true ↔ sub <:+: s := by
  induction s with
  | nil =>
    cases sub with
    | nil => simp [containsChars]
    | cons a l => simp [containsChars, List.isPrefixOf]
  | cons c cs ih =>
    rw [containsChars, Bool.or_eq_true, ih, List.infix_cons_iff, List.isPrefixOf_iff_prefix]

theorem containsChars_singleton (s : List Char) (c : Char) :
    containsChars s [c] = true ↔ c ∈ s := by
  rw [containsChars_spec]
  constructor
  · intro h
    exact h.subset (List.mem_singleton_self c)
  · intro h
    obtain ⟨l, r, rfl⟩ := List.append_of_mem h
    exact ⟨l, r, by simp⟩

theorem guard_iff_unsafeName (filename : String) :
    (stringsContains filename ".." || stringsContains filename "/" ||
      stringsContains filename "\\") = true ↔ unsafeName filename := by
  unfold unsafeName stringsContains
  rw [Bool.or_eq_true, Bool.or_eq_true]
  have h1 : ("..".data : List Char) = ['.', '.'] := rfl
  have h2 : ("/".data : List Char) = ['/'] := rfl
  have h3 : ("\\".data : List Char) = ['\\'] := rfl
  rw [h1, h2, h3, containsChars_spec, containsChars_singleton, containsChars_singleton,
    or_assoc]

/-! ## The download handler -/

/-- C1: a file name that contains `..`, a slash or a backslash gets status 400;
the handler makes no filesystem access on this path, and its answer is the
same in every filesystem state, for every fault of `os.Stat` and for every
behaviour of the file server. -/
theorem handleDownload_rejects_traversal (serveFile serveFile2 : FS → String → Response)
    (statFault statFault2 : String → Bool) (fs fs2 : FS) (filename : String)
    (h : unsafeName filename) :
    (handleDownload serveFile statFault fs filename).1.status = 400 ∧
      (handleDownload serveFile statFault fs filename).2 = [] ∧
      handleDownload serveFile statFault fs filename =
        handleDownload serveFile2 statFault2 fs2 filename := by
  have hg := (guard_iff_unsafeName filename).mpr h
  unfold handleDownload
  by_cases he : filename = ""
  · simp [he, StatusBadRequest]
  · simp only [he, if_false, hg, if_true, StatusBadRequest, and_self]

theorem handleDownload_rejects_traversal_witness :
    unsafeName "../../etc/passwd" ∧
    ((handleDownload (fun _ _ => ⟨200, ""⟩) (fun _ => false) (fun _ => true)
        "../../etc/passwd").1.status = 400 ∧
      (handleDownload (fun _ _ => ⟨200, ""⟩) (fun _ => false) (fun _ => true)
        "../../etc/passwd").2 = [] ∧
      handleDownload (fun _ _ => ⟨200, ""⟩) (fun _ => false) (fun _ => true)
          "../../etc/passwd" =
        handleDownload (fun _ _ => ⟨500, ""⟩) (fun _ => true) (fun _ => false)
          "../../etc/passwd") :=
  ⟨Or.inl ⟨[], "/../etc/passwd".data, rfl⟩,
    handleDownload_rejects_traversal (fun _ _ => ⟨200, ""⟩) (fun _ _ => ⟨500, ""⟩)
      (fun _ => false) (fun _ => true) (fun _ => true) (fun _ => false) "../../etc/passwd"
      (Or.inl ⟨[], "/../etc/passwd".data, rfl⟩)⟩

theorem handleDownload_not_exist_is_404 (serveFile : FS → String → Response)
    (statFault : String → Bool) (fs : FS) (filename : String) (hne : filename ≠ "")
    (hsafe : ¬ unsafeName filename)
    (hstat : osStat statFault fs (filepathJoin silkDir filename) = some StatErr.notExist) :
    (handleDownload serveFile statFault fs filename).1.status = 404 := by
  have hg : (stringsContains filename ".." || stringsContains filename "/" ||
      stringsContains filename "\\") = false := by
    rw [← Bool.not_eq_true, guard_iff_unsafeName]
    exact hsafe
  unfold handleDownload
  simp [hne, hg, hstat, osIsNotExist, StatusNotFound]

set_option maxRecDepth 100000 in
/-- C10 at a failing input: the name is 256 letters `a`, it passes both guards
and no file exists at its path in the output directory; `os.Stat` fails with
the error of a name that is too long, which is not a not-exist error, so the
handler goes on to `c.File` and the answer is 500, not 404. -/
theorem handleDownload_long_name_is_500 :
    decide (longName = "") = false ∧
    (stringsContains longName ".." || stringsContains longName "/" ||
      stringsContains longName "\\") = false ∧
    emptyFS (filepathJoin silkDir longName) = false ∧
    osStat nameTooLong emptyFS (filepathJoin silkDir longName) = some StatErr.other ∧
    (handleDownload (httpServeFile nameTooLong) nameTooLong emptyFS longName).1.status = 500 := by
  decide

/-! ## The text-to-speech stub -/

/-- C7 fails as stated: binding an empty body fails, whatever the JSON decoder
does on other bodies, and the answer is 400, not 501. -/
theorem handleTTS_empty_body_not_501 :
    (handleTTS (shouldBindJSON (fun b => Except.ok b)) "").status = 400 ∧
    (handleTTS (shouldBindJSON (fun _ => Except.error "invalid character")) "").status = 400 ∧
    (handleTTS (shouldBindJSON (fun b => Except.ok b)) "").status ≠ 501 := by
  decide

/-- C7 amended: whatever `c.ShouldBindJSON` does, `handleTTS` answers 501 exactly
for the bodies it binds without error and 400 exactly for the bodies it
rejects; no other status occurs. -/
theorem handleTTS_status (bind : String → Except String String) (body : String) :
    ((handleTTS bind body).status = 501 ↔ ∃ text, bind body = Except.ok text) ∧
      ((handleTTS bind body).status = 400 ↔ ∃ e, bind body = Except.error e) ∧
      ((handleTTS bind body).status = 501 ∨ (handleTTS bind body).status = 400) := by
  unfold handleTTS
  cases hb : bind body with
  | error e => simp [StatusBadRequest]
  | ok text => simp [StatusNotImplemented]

theorem handleTTS_shouldBindJSON (decode : String → Except String String) (body : String) :
    (handleTTS (shouldBindJSON decode) body).status = 501 ↔
      body ≠ "" ∧ ∃ text, text ≠ "" ∧ decode body = Except.ok text := by
  unfold handleTTS shouldBindJSON
  by_cases hb : body = ""
  · simp [hb, StatusBadRequest]
  · cases hd : decode body with
    | error e => simp [hb, StatusBadRequest]
    | ok text =>
      by_cases ht : text = ""
      · simp [hb, ht, StatusBadRequest]
      · simp [hb, ht, StatusNotImplemented]

/-! ## Housekeeping -/

theorem timeSub_gt_cacheTime (t u : Int) : timeSub t u > cacheTime ↔ t - u > cacheTime := by
  unfold timeSub maxDuration minDuration cacheTime
  split_ifs <;> omega

theorem cleanEntry_of_removeOk (removeOk : String → Bool) (hok : ∀ p, removeOk p = true)
    (now : Int) (dir : String) (st : List DirEntry × Nat) (f : DirEntry) :
    cleanEntry removeOk now dir st f =
      if expired now f = true then (st.1.filter (fun e => e.name != f.name), st.2 + 1)
      else st := by
  unfold cleanEntry expired
  cases hd : f.isDir with
  | true => simp
  | false =>
    cases hm : f.modTime with
    | none => simp
    | some mt =>
      simp only [Bool.false_eq_true, if_false, hok, if_true, Bool.not_false, Bool.true_and,
        decide_eq_true_eq]
      by_cases h : now - mt > cacheTime
      · rw [if_pos ((timeSub_gt_cacheTime now mt).mpr h), if_pos h]
      · rw [if_neg (fun h2 => h ((timeSub_gt_cacheTime now mt).mp h2)), if_neg h]

theorem foldl_cleanEntry (removeOk : String → Bool) (hok : ∀ p, removeOk p = true)
    (now : Int) (dir : String) (l : List DirEntry) (st : List DirEntry × Nat) :
    l.foldl (cleanEntry removeOk now dir) st =
      (st.1.filter (fun e => !(l.any (fun f => expired now f && f.name == e.name))),
        st.2 + (l.filter (expired now)).length) := by
  induction l generalizing st with
  | nil => simp
  | cons f l ih =>
    rw [List.foldl_cons, ih, cleanEntry_of_removeOk removeOk hok]
    by_cases hf : expired now f = true
    · simp only [hf, if_true, List.filter_filter, List.any_cons, Bool.true_and,
        List.filter_cons_of_pos, List.length_cons]
      refine Prod.ext ?_ (by simp only; omega)
      simp only
      apply List.filter_congr
      intro e _
      cases h1 : (f.name == e.name) with
      | true =>
        have : (e.name != f.name) = false := by
          rw [beq_iff_eq] at h1
          simp [h1]
        simp [this]
      | false =>
        have : (e.name != f.name) = true := by
          rw [bne_iff_ne]
          intro h
          rw [h] at h1
          simp at h1
        simp [this]
    · have hf2 : expired now f = false := by simpa using hf
      simp [hf2]

/-- C9: when every removal succeeds, `cleanDir` leaves in the directory exactly
the listed entries that are subdirectories, or whose age is at most the
retention window of 24 hours, or whose modification time cannot be read; they
stay in order and unchanged.  The removed entries are the files older than the
window, and the count is their number. -/
theorem cleanDir_removes_exactly_expired (removeOk : String → Bool) (now : Int) (dir : String)
    (files : List DirEntry) (hok : ∀ p, removeOk p = true)
    (hnames : (files.map DirEntry.name).Nodup) :
    (cleanDir removeOk now dir (some files) files).1 =
        files.filter (fun e => !(expired now e)) ∧
      (cleanDir removeOk now dir (some files) files).2 = (files.filter (expired now)).length ∧
      ∀ e ∈ files, (e ∈ (cleanDir removeOk now dir (some files) files).1 ↔
        (e.isDir = true ∨ ∀ mt, e.modTime = some mt → now - mt ≤ 24 * 3600 * 1000000000)) := by
  have hmain : (cleanDir removeOk now dir (some files) files).1 =
      files.filter (fun e => !(expired now e)) := by
    simp only [cleanDir]
    rw [foldl_cleanEntry removeOk hok]
    apply List.filter_congr
    intro e he
    congr 1
    cases hx : expired now e with
    | true =>
      rw [List.any_eq_true]
      exact ⟨e, he, by simp [hx]⟩
    | false =>
      rw [List.any_eq_false]
      intro f hf hcontra
      rw [Bool.and_eq_true, beq_iff_eq] at hcontra
      have hfe : f = e := List.inj_on_of_nodup_map hnames hf he hcontra.2
      rw [hfe, hx] at hcontra
      exact Bool.false_ne_true hcontra.1
  refine ⟨hmain, ?_, ?_⟩
  · simp only [cleanDir]
    rw [foldl_cleanEntry removeOk hok]
    simp
  · intro e he
    rw [hmain, List.mem_filter]
    unfold expired cacheTime
    cases hd : e.isDir with
    | true => simp [he]
    | false =>
      cases hm : e.modTime with
      | none => simp [he]
      | some mt => simp [he]

theorem cleanDir_removes_exactly_expired_witness :
    (∀ p, (fun _ => true : String → Bool) p = true) ∧
    (([⟨"old.wav", false, some 0⟩, ⟨"new.silk", false, some 90000000000000⟩,
        ⟨"sub", true, some 0⟩] : List DirEntry).map DirEntry.name).Nodup ∧
    (cleanDir (fun _ => true) 100000000000000 "./uploads"
        (some [⟨"old.wav", false, some 0⟩, ⟨"new.silk", false, some 90000000000000⟩,
          ⟨"sub", true, some 0⟩])
        [⟨"old.wav", false, some 0⟩, ⟨"new.silk", false, some 90000000000000⟩,
          ⟨"sub", true, some 0⟩]).1 =
      [⟨"new.silk", false, some 90000000000000⟩, ⟨"sub", true, some 0⟩] :=
  ⟨fun _ => rfl, by decide,
    (cleanDir_removes_exactly_expired (fun _ => true) 100000000000000 "./uploads"
      [⟨"old.wav", false, some 0⟩, ⟨"new.silk", false, some 90000000000000⟩,
        ⟨"sub", true, some 0⟩] (fun _ => rfl) (by decide)).1.trans (by decide)⟩

/-! ## The conversion pipeline: temporary files -/

/-- C2 fails as stated: the transcoder writes the PCM file and exits with a
non-zero status, `os.Remove(pcmPath)` fails and its error is dropped;
`ConvertToSilk` returns the error of the transcoder and the PCM file, which
did not exist before the call, exists at the return. -/
theorem ConvertToSilk_pcm_left_when_remove_fails :
    emptyFS "/srv/uploads/1709802301000000000.pcm" = false ∧
    pcmPathOf demoService (demoEnvRemoveFails transcoderWritesThenFails) =
      "/srv/uploads/1709802301000000000.pcm" ∧
    (ConvertToSilk demoService (demoEnvRemoveFails transcoderWritesThenFails)
        (Input.bytes [82, 73, 70, 70]) emptyFS).ret = Except.error "PCM转换失败" ∧
    (ConvertToSilk demoService (demoEnvRemoveFails transcoderWritesThenFails)
        (Input.bytes [82, 73, 70, 70]) emptyFS).fs "/srv/uploads/1709802301000000000.pcm" =
      true := by
  decide

/-- C2 amended: for every input and every outcome of the two tools, if
`os.Remove(pcmPath)` succeeds then no file exists at the PCM path when
`ConvertToSilk` returns after having started a tool; on every return before a
tool was started the PCM path is as it was once the input was staged; so with
a removal that succeeds and a PCM path free after staging, no file exists at
the PCM path at the return. -/
theorem ConvertToSilk_pcm_absent (s : AudioService) (env : Env) (input : Input) (fs : FS) :
    ((ConvertToSilk s env input fs).started ≠ [] → env.removeOk (pcmPathOf s env) = true →
      (ConvertToSilk s env input fs).fs (pcmPathOf s env) = false) ∧
    ((ConvertToSilk s env input fs).started = [] →
      (ConvertToSilk s env input fs).fs (pcmPathOf s env) =
        (resolveInput s env input fs).2 (pcmPathOf s env)) ∧
    (env.removeOk (pcmPathOf s env) = true →
      (resolveInput s env input fs).2 (pcmPathOf s env) = false →
      (ConvertToSilk s env input fs).fs (pcmPathOf s env) = false) := by
  unfold ConvertToSilk pcmPathOf
  generalize resolveInput s env input fs = res
  obtain ⟨r, fs1⟩ := res
  cases r with
  | error e => simp
  | ok p =>
    simp only
    generalize env.run (ffmpegCmd s p (filepathJoin s.UploadDir (pcmFilename env.nowPcm)))
      fs1 = o
    cases o with
    | stdoutPipeErr => simp
    | stderrPipeErr => simp
    | startErr => simp
    | waitErr fs2 =>
      simp only [osRemove]
      refine ⟨fun _ h => by simp [h], fun h => by simp at h, fun h _ => by simp [h]⟩
    | exited fs2 =>
      simp only
      generalize env.run (encoderCmd s env (filepathJoin s.UploadDir (pcmFilename env.nowPcm))
        (filepathJoin s.SilkDir (outputFilename env.nowOutput))) fs2 = o2
      cases o2 with
      | stdoutPipeErr =>
        simp only [osRemove]
        refine ⟨fun _ h => by simp [h], fun h => by simp at h, fun h _ => by simp [h]⟩
      | stderrPipeErr =>
        simp only [osRemove]
        refine ⟨fun _ h => by simp [h], fun h => by simp at h, fun h _ => by simp [h]⟩
      | startErr =>
        simp only [osRemove]
        refine ⟨fun _ h => by simp [h], fun h => by simp at h, fun h _ => by simp [h]⟩
      | waitErr fs3 =>
        simp only [osRemove]
        refine ⟨fun _ h => by simp [h], fun h => by simp at h, fun h _ => by simp [h]⟩
      | exited fs3 =>
        simp only [osRemove]
        refine ⟨fun _ h => ?_, fun h => ?_, fun h _ => ?_⟩
        · split_ifs <;> simp [h]
        · split_ifs at h
        · split_ifs <;> simp [h]

theorem ConvertToSilk_pcm_absent_witness :
    (ConvertToSilk demoService (demoEnv httpOk transcoderWritesThenFails)
        (Input.bytes [82, 73, 70, 70]) emptyFS).started ≠ [] ∧
    (demoEnv httpOk transcoderWritesThenFails).removeOk
        (pcmPathOf demoService (demoEnv httpOk transcoderWritesThenFails)) = true ∧
    (ConvertToSilk demoService (demoEnv httpOk transcoderWritesThenFails)
        (Input.bytes [82, 73, 70, 70]) emptyFS).fs
      (pcmPathOf demoService (demoEnv httpOk transcoderWritesThenFails)) = false ∧
    (ConvertToSilk demoService (demoEnv httpOk transcoderNoStart)
        (Input.bytes [82, 73, 70, 70]) emptyFS).started = [] ∧
    (ConvertToSilk demoService (demoEnv httpOk transcoderNoStart)
        (Input.bytes [82, 73, 70, 70]) emptyFS).fs
      (pcmPathOf demoService (demoEnv httpOk transcoderNoStart)) =
      (resolveInput demoService (demoEnv httpOk transcoderNoStart)
        (Input.bytes [82, 73, 70, 70]) emptyFS).2
        (pcmPathOf demoService (demoEnv httpOk transcoderNoStart)) :=
  ⟨by decide, rfl,
    (ConvertToSilk_pcm_absent demoService (demoEnv httpOk transcoderWritesThenFails)
      (Input.bytes [82, 73, 70, 70]) emptyFS).1 (by decide) rfl,
    by decide,
    (ConvertToSilk_pcm_absent demoService (demoEnv httpOk transcoderNoStart)
      (Input.bytes [82, 73, 70, 70]) emptyFS).2.1 (by decide)⟩

/-- C4 at a failing input: a byte buffer is staged as
`/srv/uploads/1709802301000000000.wav`, the transcoder exits with a non-zero
status, `ConvertToSilk` returns the error, and the staged file still exists. -/
theorem ConvertToSilk_staged_input_left_on_failure :
    (resolveInput demoService (demoEnv (fun _ => none) transcoderFails)
        (Input.bytes [82, 73, 70, 70]) emptyFS).1 =
      Except.ok "/srv/uploads/1709802301000000000.wav" ∧
    (ConvertToSilk demoService (demoEnv (fun _ => none) transcoderFails)
        (Input.bytes [82, 73, 70, 70]) emptyFS).ret = Except.error "PCM转换失败" ∧
    (ConvertToSilk demoService (demoEnv (fun _ => none) transcoderFails)
        (Input.bytes [82, 73, 70, 70]) emptyFS).fs "/srv/uploads/1709802301000000000.wav" = true := by
  decide

/-- C3 fails as stated: a local file `/data/in.mp3` is passed in, both tools
succeed, `ConvertToSilk` returns the output name, and the local file is gone. -/
theorem ConvertToSilk_deletes_local_input_on_success :
    stringsHasPrefix "/data/in.mp3" "http" = false ∧
    (fsCreate emptyFS "/data/in.mp3") "/data/in.mp3" = true ∧
    (ConvertToSilk demoService (demoEnv (fun _ => none) toolsSucceed) (Input.str "/data/in.mp3")
        (fsCreate emptyFS "/data/in.mp3")).ret = Except.ok "20240307_090501.silk" ∧
    (ConvertToSilk demoService (demoEnv (fun _ => none) toolsSucceed) (Input.str "/data/in.mp3")
        (fsCreate emptyFS "/data/in.mp3")).fs "/data/in.mp3" = false := by
  decide

theorem osRemove_other (ok : Bool) (fs : FS) (path q : String) (h : q ≠ path) :
    osRemove ok fs path q = fs q := by
  unfold osRemove
  cases ok <;> simp [h]

theorem osRemove_self (ok : Bool) (fs : FS) (path : String) (h : fs path = true) :
    osRemove ok fs path path = !ok := by
  unfold osRemove
  cases ok <;> simp [h]

/-- C3 amended: for a local path input (not classified as a URL) that names an
existing file other than the PCM path, with tools that leave that file in
place, the file is still present after every return caused by a failure of a
tool (pipe, start or non-zero exit); when both tools exited with status 0 the
pipeline has called `os.Remove` on it, so after a return with a file name or
with the error of a missing output file the file is gone if that removal
succeeded and still present if it failed. -/
theorem ConvertToSilk_local_input_fate (s : AudioService) (env : Env) (v : String) (fs : FS)
    (hlocal : stringsHasPrefix v "http" = false) (hpresent : fs v = true)
    (hne : v ≠ pcmPathOf s env) (hkeep : ∀ c f, toolKeeps (env.run c f) f v) :
    match (ConvertToSilk s env (Input.str v) fs).ret with
    | Except.ok _ => (ConvertToSilk s env (Input.str v) fs).fs v = !env.removeOk v
    | Except.error e =>
      if e = "转换失败：输出文件未生成" then
        (ConvertToSilk s env (Input.str v) fs).fs v = !env.removeOk v
      else (ConvertToSilk s env (Input.str v) fs).fs v = true := by
  have hres : resolveInput s env (Input.str v) fs = (Except.ok v, fs) := by
    simp [resolveInput, hlocal]
  have hne2 : v ≠ filepathJoin s.UploadDir (pcmFilename env.nowPcm) := hne
  unfold ConvertToSilk
  rw [hres]
  simp only
  have h1 := hkeep (ffmpegCmd s v (filepathJoin s.UploadDir (pcmFilename env.nowPcm))) fs
  cases hr : env.run (ffmpegCmd s v (filepathJoin s.UploadDir (pcmFilename env.nowPcm))) fs with
  | stdoutPipeErr => exact hpresent
  | stderrPipeErr => exact hpresent
  | startErr => exact hpresent
  | waitErr fs2 =>
    rw [hr] at h1
    have := h1 hpresent
    simp only [osRemove_other _ _ _ _ hne2]
    rw [if_neg (by decide)]
    exact this
  | exited fs2 =>
    rw [hr] at h1
    have hp2 : fs2 v = true := h1 hpresent
    simp only
    have h2 := hkeep (encoderCmd s env (filepathJoin s.UploadDir (pcmFilename env.nowPcm))
      (filepathJoin s.SilkDir (outputFilename env.nowOutput))) fs2
    cases hr2 : env.run (encoderCmd s env (filepathJoin s.UploadDir (pcmFilename env.nowPcm))
      (filepathJoin s.SilkDir (outputFilename env.nowOutput))) fs2 with
    | stdoutPipeErr =>
      simp only [osRemove_other _ _ _ _ hne2]
      rw [if_neg (by decide)]
      exact hp2
    | stderrPipeErr =>
      simp only [osRemove_other _ _ _ _ hne2]
      rw [if_neg (by decide)]
      exact hp2
    | startErr =>
      simp only [osRemove_other _ _ _ _ hne2]
      rw [if_neg (by decide)]
      exact hp2
    | waitErr fs3 =>
      rw [hr2] at h2
      have := h2 hp2
      simp only [osRemove_other _ _ _ _ hne2]
      rw [if_neg (by decide)]
      exact this
    | exited fs3 =>
      rw [hr2] at h2
      have hp3 : fs3 v = true := h2 hp2
      have hp4 : osRemove (env.removeOk (filepathJoin s.UploadDir (pcmFilename env.nowPcm))) fs3
          (filepathJoin s.UploadDir (pcmFilename env.nowPcm)) v = true := by
        rw [osRemove_other _ _ _ _ hne2]
        exact hp3
      simp only
      split_ifs
      · simp only [if_true]
        exact osRemove_self _ _ _ hp4
      · exact osRemove_self _ _ _ hp4

theorem ConvertToSilk_local_input_fate_witness :
    stringsHasPrefix "/data/in.mp3" "http" = false ∧
    (fsCreate emptyFS "/data/in.mp3") "/data/in.mp3" = true ∧
    "/data/in.mp3" ≠ pcmPathOf demoService (demoEnv (fun _ => none) transcoderFails) ∧
    (∀ c f, toolKeeps ((demoEnv (fun _ => none) transcoderFails).run c f) f "/data/in.mp3") ∧
    (ConvertToSilk demoService (demoEnv (fun _ => none) transcoderFails) (Input.str "/data/in.mp3")
        (fsCreate emptyFS "/data/in.mp3")).ret = Except.error "PCM转换失败" ∧
    (ConvertToSilk demoService (demoEnv (fun _ => none) transcoderFails) (Input.str "/data/in.mp3")
        (fsCreate emptyFS "/data/in.mp3")).fs "/data/in.mp3" = true ∧
    (ConvertToSilk demoService (demoEnvRemoveFails toolsSucceed) (Input.str "/data/in.mp3")
        (fsCreate emptyFS "/data/in.mp3")).ret = Except.ok "20240307_090501.silk" ∧
    (ConvertToSilk demoService (demoEnvRemoveFails toolsSucceed) (Input.str "/data/in.mp3")
        (fsCreate emptyFS "/data/in.mp3")).fs "/data/in.mp3" = true :=
  ⟨by decide, by decide, by decide, fun _ _ h => h, by decide,
    ConvertToSilk_local_input_fate demoService (demoEnv (fun _ => none) transcoderFails)
      "/data/in.mp3" (fsCreate emptyFS "/data/in.mp3") (by decide) (by decide) (by decide)
      (fun _ _ h => h),
    by decide,
    ConvertToSilk_local_input_fate demoService (demoEnvRemoveFails toolsSucceed)
      "/data/in.mp3" (fsCreate emptyFS "/data/in.mp3") (by decide) (by decide) (by decide)
      (fun c f => by
        unfold demoEnvRemoveFails toolsSucceed toolKeeps
        simp only
        split_ifs <;> simp [fsCreate] <;> intro h <;> simp [h])⟩

/-! ## Decimal formatting -/

theorem digitChar_isDigit (m : Nat) (h : m < 10) : (Nat.digitChar m).isDigit = true := by
  interval_cases m <;> decide

theorem toDigitsCore_isDigit (fuel n : Nat) (acc : List Char)
    (hacc : ∀ c ∈ acc, c.isDigit = true) :
    ∀ c ∈ Nat.toDigitsCore 10 fuel n acc, c.isDigit = true := by
  induction fuel generalizing n acc with
  | zero => simpa [Nat.toDigitsCore] using hacc
  | succ k ih =>
    have hd : (Nat.digitChar (n % 10)).isDigit = true :=
      digitChar_isDigit (n % 10) (Nat.mod_lt n (by decide))
    have hcons : ∀ c ∈ Nat.digitChar (n % 10) :: acc, c.isDigit = true := by
      intro c hc
      rcases List.mem_cons.mp hc with h | h
      · rw [h]
        exact hd
      · exact hacc c h
    simp only [Nat.toDigitsCore]
    split_ifs
    · exact hcons
    · exact ih (n / 10) _ hcons

theorem fmtNat_isDigit (n : Nat) : ∀ c ∈ fmtNat n, c.isDigit = true :=
  toDigitsCore_isDigit (n + 1) n [] (fun _ h => absurd h (List.not_mem_nil _))

theorem fmtD_nameChar (i : Int) : ∀ c ∈ fmtD i, nameChar c = true := by
  intro c hc
  cases i with
  | ofNat n =>
    have := fmtNat_isDigit n c hc
    simp [nameChar, this]
  | negSucc n =>
    rcases List.mem_cons.mp hc with h | h
    · rw [h]
      decide
    · have := fmtNat_isDigit (n + 1) c h
      simp [nameChar, this]

theorem fmt02d_nameChar (n : Nat) : ∀ c ∈ fmt02d (n : Int), nameChar c = true := by
  intro c hc
  have hc2 : c ∈ (if (fmtNat n).length < 2 then '0' :: fmtNat n else fmtNat n) := hc
  have hdig : c.isDigit = true := by
    split_ifs at hc2
    · rcases List.mem_cons.mp hc2 with h | h
      · rw [h]
        decide
      · exact fmtNat_isDigit n c h
    · exact fmtNat_isDigit n c hc2
  simp [nameChar, hdig]

theorem outputFilename_nameChar (now : GoTime) :
    ∀ c ∈ (outputFilename now).data, nameChar c = true := by
  intro c hc
  simp only [outputFilename, List.mem_append, List.mem_cons] at hc
  rcases hc with ((h | h) | h) | h | ((h | h) | h) | h
  · exact fmtD_nameChar _ c h
  · exact fmt02d_nameChar _ c h
  · exact fmt02d_nameChar _ c h
  · rw [h]
    decide
  · exact fmt02d_nameChar _ c h
  · exact fmt02d_nameChar _ c h
  · exact fmt02d_nameChar _ c h
  · simp only [List.not_mem_nil, or_false] at h
    rcases h with h | h | h | h | h <;> rw [h] <;> decide

theorem outputFilename_suffix (now : GoTime) :
    stringsHasSuffix (outputFilename now) ".silk" = true := by
  unfold stringsHasSuffix
  rw [List.isPrefixOf_iff_prefix, List.reverse_prefix]
  simp only [outputFilename]
  refine ⟨fmtD now.year ++ fmt02d now.month ++ fmt02d now.day ++
    '_' :: (fmt02d now.hour ++ fmt02d now.minute ++ fmt02d now.second), ?_⟩
  simp

/-! ## The conversion pipeline: the returned file name -/

theorem ConvertToSilk_ok_inv (s : AudioService) (env : Env) (input : Input) (fs : FS)
    (name : String) (h : (ConvertToSilk s env input fs).ret = Except.ok name) :
    name = outputFilename env.nowOutput ∧
      osStat env.statFault (ConvertToSilk s env input fs).fs (filepathJoin s.SilkDir name) ≠
        some StatErr.notExist := by
  unfold ConvertToSilk at h ⊢
  generalize resolveInput s env input fs = res at h ⊢
  obtain ⟨r, fs1⟩ := res
  cases r with
  | error e => simp at h
  | ok p =>
    simp only at h ⊢
    generalize env.run (ffmpegCmd s p (filepathJoin s.UploadDir (pcmFilename env.nowPcm)))
      fs1 = o at h ⊢
    cases o with
    | stdoutPipeErr => simp at h
    | stderrPipeErr => simp at h
    | startErr => simp at h
    | waitErr fs2 => simp at h
    | exited fs2 =>
      simp only at h ⊢
      generalize env.run (encoderCmd s env (filepathJoin s.UploadDir (pcmFilename env.nowPcm))
        (filepathJoin s.SilkDir (outputFilename env.nowOutput))) fs2 = o2 at h ⊢
      cases o2 with
      | stdoutPipeErr => simp at h
      | stderrPipeErr => simp at h
      | startErr => simp at h
      | waitErr fs3 => simp at h
      | exited fs3 =>
        simp only at h ⊢
        split_ifs at h with hstat
        rw [if_neg hstat]
        simp only [Except.ok.injEq] at h
        subst h
        refine ⟨rfl, ?_⟩
        simp only
        intro hcontra
        rw [hcontra] at hstat
        exact hstat rfl

theorem ConvertToSilk_ok_name (s : AudioService) (env : Env) (input : Input) (fs : FS)
    (name : String) (h : (ConvertToSilk s env input fs).ret = Except.ok name) :
    name = outputFilename env.nowOutput ∧ stringsHasSuffix name ".silk" = true ∧
      '/' ∉ name.data ∧ '\\' ∉ name.data ∧
      (env.statFault (filepathJoin s.SilkDir name) = false →
        (ConvertToSilk s env input fs).fs (filepathJoin s.SilkDir name) = true) := by
  obtain ⟨hname, hstat⟩ := ConvertToSilk_ok_inv s env input fs name h
  refine ⟨hname, ?_, ?_, ?_, ?_⟩
  · rw [hname]
    exact outputFilename_suffix _
  · intro hmem
    rw [hname] at hmem
    have := outputFilename_nameChar _ _ hmem
    revert this
    decide
  · intro hmem
    rw [hname] at hmem
    have := outputFilename_nameChar _ _ hmem
    revert this
    decide
  · intro hfault
    unfold osStat at hstat
    rw [hfault] at hstat
    simp only [Bool.false_eq_true, if_false] at hstat
    split_ifs at hstat with hex
    · exact hex
    · exact absurd rfl hstat

/-- C5 at a failing input: the output directory `/srv/outputs` is a regular
file, so the encoder cannot write the output and `os.Stat(outputPath)` fails
with an error that is not a not-exist error; both tools exit with status 0,
and `ConvertToSilk` returns the file name with a nil error although no file
exists at the output path. -/
theorem ConvertToSilk_reports_success_without_output :
    (ConvertToSilk demoService (demoEnvOutputNotDir encoderSilent)
        (Input.bytes [82, 73, 70, 70]) (fsCreate emptyFS "/srv/outputs")).ret =
      Except.ok "20240307_090501.silk" ∧
    filepathJoin demoService.SilkDir "20240307_090501.silk" =
      "/srv/outputs/20240307_090501.silk" ∧
    (ConvertToSilk demoService (demoEnvOutputNotDir encoderSilent)
        (Input.bytes [82, 73, 70, 70]) (fsCreate emptyFS "/srv/outputs")).fs
      "/srv/outputs/20240307_090501.silk" = false ∧
    (ConvertToSilk demoService (demoEnvOutputNotDir encoderSilent)
        (Input.bytes [82, 73, 70, 70]) (fsCreate emptyFS "/srv/outputs")).started =
      [ffmpegCmd demoService "/srv/uploads/1709802301000000000.wav"
          "/srv/uploads/1709802301000000000.pcm",
        encoderCmd demoService (demoEnvOutputNotDir encoderSilent)
          "/srv/uploads/1709802301000000000.pcm" "/srv/outputs/20240307_090501.silk"] := by
  decide

/-! ## Downloading the input -/

/-- C8 fails as stated: the server answers 404, `downloadFromURL` returns the
staged path with a nil error, and `ConvertToSilk` starts the transcoder on it. -/
theorem downloadFromURL_accepts_status_404 :
    (httpNotFound "http://host/missing.mp3").map HttpResponse.status = some 404 ∧
    (downloadFromURL demoService (demoEnv httpNotFound transcoderFails) "http://host/missing.mp3"
        emptyFS).1 = Except.ok "/srv/uploads/1709802301000000000.mp3" ∧
    (ConvertToSilk demoService (demoEnv httpNotFound transcoderFails)
        (Input.str "http://host/missing.mp3") emptyFS).started =
      [ffmpegCmd demoService "/srv/uploads/1709802301000000000.mp3"
        "/srv/uploads/1709802301000000000.pcm"] := by
  decide

/-- C8 amended: `downloadFromURL` returns an error when the GET fails at
transport level, when the staged file cannot be created and when the body
cannot be copied into it, and in these three cases `ConvertToSilk` starts no
command; for a response with any status code, successful or not, whose body
is written to disk without error, it returns the staged path, and
`ConvertToSilk` runs the transcoder on that path. -/
theorem downloadFromURL_ignores_status (s : AudioService) (env : Env) (url : String) (fs : FS) :
    (env.httpGet url = none →
      downloadFromURL s env url fs = (Except.error "HTTP请求失败", fs) ∧
      (stringsHasPrefix url "http" = true →
        (ConvertToSilk s env (Input.str url) fs).ret = Except.error "HTTP请求失败" ∧
        (ConvertToSilk s env (Input.str url) fs).started = [])) ∧
    (∀ resp, env.httpGet url = some resp →
      env.createOk (downloadPath s env url) = false →
      downloadFromURL s env url fs = (Except.error "创建文件失败", fs) ∧
      (stringsHasPrefix url "http" = true →
        (ConvertToSilk s env (Input.str url) fs).ret = Except.error "创建文件失败" ∧
        (ConvertToSilk s env (Input.str url) fs).started = [])) ∧
    (∀ resp, env.httpGet url = some resp →
      env.createOk (downloadPath s env url) = true →
      env.copyOk (downloadPath s env url) = false →
      downloadFromURL s env url fs =
        (Except.error "保存文件失败", fsCreate fs (downloadPath s env url)) ∧
      (stringsHasPrefix url "http" = true →
        (ConvertToSilk s env (Input.str url) fs).ret = Except.error "保存文件失败" ∧
        (ConvertToSilk s env (Input.str url) fs).started = [])) ∧
    (∀ resp, env.httpGet url = some resp →
      env.createOk (downloadPath s env url) = true →
      env.copyOk (downloadPath s env url) = true →
      downloadFromURL s env url fs =
        (Except.ok (downloadPath s env url), fsCreate fs (downloadPath s env url)) ∧
      (stringsHasPrefix url "http" = true →
        (env.run (ffmpegCmd s (downloadPath s env url) (pcmPathOf s env))
          (fsCreate fs (downloadPath s env url))).ran = true →
        (ConvertToSilk s env (Input.str url) fs).started.head? =
          some (ffmpegCmd s (downloadPath s env url) (pcmPathOf s env)))) := by
  refine ⟨?_, ?_, ?_, ?_⟩
  · intro hget
    have hd : downloadFromURL s env url fs = (Except.error "HTTP请求失败", fs) := by
      simp [downloadFromURL, hget]
    refine ⟨hd, ?_⟩
    intro hp
    simp [ConvertToSilk, resolveInput, hp, hd]
  · intro resp hget hcreate
    have hd : downloadFromURL s env url fs = (Except.error "创建文件失败", fs) := by
      unfold downloadPath at hcreate
      simp [downloadFromURL, hget, hcreate]
    refine ⟨hd, ?_⟩
    intro hp
    simp [ConvertToSilk, resolveInput, hp, hd]
  · intro resp hget hcreate hcopy
    have hd : downloadFromURL s env url fs =
        (Except.error "保存文件失败", fsCreate fs (downloadPath s env url)) := by
      unfold downloadPath at hcreate hcopy ⊢
      simp [downloadFromURL, hget, hcreate, hcopy]
    refine ⟨hd, ?_⟩
    intro hp
    simp [ConvertToSilk, resolveInput, hp, hd]
  · intro resp hget hcreate hcopy
    have hd : downloadFromURL s env url fs =
        (Except.ok (downloadPath s env url), fsCreate fs (downloadPath s env url)) := by
      unfold downloadPath at hcreate hcopy ⊢
      simp [downloadFromURL, hget, hcreate, hcopy]
    refine ⟨hd, ?_⟩
    intro hp hran
    unfold pcmPathOf at hran ⊢
    simp only [ConvertToSilk, resolveInput, hp, if_true, hd]
    generalize env.run (ffmpegCmd s (downloadPath s env url)
      (filepathJoin s.UploadDir (pcmFilename env.nowPcm)))
      (fsCreate fs (downloadPath s env url)) = o at hran ⊢
    cases o with
    | stdoutPipeErr => simp [ProcOutcome.ran] at hran
    | stderrPipeErr => simp [ProcOutcome.ran] at hran
    | startErr => simp [ProcOutcome.ran] at hran
    | waitErr fs2 => rfl
    | exited fs2 =>
      simp only
      generalize env.run (encoderCmd s env (filepathJoin s.UploadDir (pcmFilename env.nowPcm))
        (filepathJoin s.SilkDir (outputFilename env.nowOutput))) fs2 = o2
      cases o2 with
      | stdoutPipeErr => rfl
      | stderrPipeErr => rfl
      | startErr => rfl
      | waitErr fs3 => rfl
      | exited fs3 =>
        simp only
        split_ifs <;> rfl

theorem downloadFromURL_ignores_status_witness :
    (demoEnv httpNotFound toolsSucceed).httpGet "http://host/missing.mp3" =
      some ⟨404, [60, 104, 49, 62]⟩ ∧
    downloadFromURL demoService (demoEnv httpNotFound toolsSucceed) "http://host/missing.mp3"
        emptyFS =
      (Except.ok (downloadPath demoService (demoEnv httpNotFound toolsSucceed)
          "http://host/missing.mp3"),
        fsCreate emptyFS (downloadPath demoService (demoEnv httpNotFound toolsSucceed)
          "http://host/missing.mp3")) ∧
    (downloadFromURL demoService (demoEnv (fun _ => none) toolsSucceed) "http://host/a.mp3"
        emptyFS).1 = Except.error "HTTP请求失败" ∧
    (downloadFromURL demoService (demoEnvCreateFails toolsSucceed) "http://host/a.mp3"
        emptyFS).1 = Except.error "创建文件失败" ∧
    (downloadFromURL demoService (demoEnvCopyFails toolsSucceed) "http://host/a.mp3"
        emptyFS).1 = Except.error "保存文件失败" :=
  ⟨rfl,
    ((downloadFromURL_ignores_status demoService (demoEnv httpNotFound toolsSucceed)
      "http://host/missing.mp3" emptyFS).2.2.2 ⟨404, [60, 104, 49, 62]⟩ rfl (by decide)
      (by decide)).1,
    congrArg Prod.fst ((downloadFromURL_ignores_status demoService
      (demoEnv (fun _ => none) toolsSucceed) "http://host/a.mp3" emptyFS).1 rfl).1,
    congrArg Prod.fst ((downloadFromURL_ignores_status demoService
      (demoEnvCreateFails toolsSucceed) "http://host/a.mp3" emptyFS).2.1
      ⟨200, [82, 73, 70, 70]⟩ rfl (by decide)).1,
    congrArg Prod.fst ((downloadFromURL_ignores_status demoService
      (demoEnvCopyFails toolsSucceed) "http://host/a.mp3" emptyFS).2.2.1
      ⟨200, [82, 73, 70, 70]⟩ rfl (by decide) (by decide)).1⟩

/-! ## Injectivity of the decimal formats -/

theorem charVal_digitChar (m : Nat) (h : m < 10) : charVal (Nat.digitChar m) = m := by
  interval_cases m <;> rfl

theorem foldl_toDigitsCore (fuel n : Nat) (acc : List Char) (h : n < fuel) :
    (Nat.toDigitsCore 10 fuel n acc).foldl (fun a c => a * 10 + charVal c) 0 =
      acc.foldl (fun a c => a * 10 + charVal c) n := by
  induction fuel generalizing n acc with
  | zero => omega
  | succ k ih =>
    have hv : charVal (Nat.digitChar (n % 10)) = n % 10 :=
      charVal_digitChar (n % 10) (Nat.mod_lt n (by decide))
    simp only [Nat.toDigitsCore]
    split_ifs with h0
    · have hn : n % 10 = n := by omega
      simp only [List.foldl_cons, hv, Nat.zero_mul, Nat.zero_add]
      rw [hn]
    · rw [ih (n / 10) _ (by omega)]
      simp only [List.foldl_cons, hv]
      congr 1
      omega

theorem ofDigitChars_fmtNat (n : Nat) : ofDigitChars (fmtNat n) = n := by
  have h := foldl_toDigitsCore (n + 1) n [] (Nat.lt_succ_self n)
  simpa [ofDigitChars, fmtNat, Nat.toDigits] using h

theorem fmtNat_injective (n m : Nat) (h : fmtNat n = fmtNat m) : n = m := by
  have := congrArg ofDigitChars h
  rwa [ofDigitChars_fmtNat, ofDigitChars_fmtNat] at this

theorem minus_not_mem_fmtNat (n : Nat) : '-' ∉ fmtNat n := by
  intro h
  have := fmtNat_isDigit n _ h
  revert this
  decide

theorem fmtD_injective (i j : Int) (h : fmtD i = fmtD j) : i = j := by
  cases i with
  | ofNat n =>
    cases j with
    | ofNat m =>
      have : n = m := fmtNat_injective n m h
      rw [this]
    | negSucc m =>
      exfalso
      apply minus_not_mem_fmtNat n
      have h2 : fmtNat n = '-' :: fmtNat (m + 1) := h
      rw [h2]
      exact List.mem_cons_self _ _
  | negSucc n =>
    cases j with
    | ofNat m =>
      exfalso
      apply minus_not_mem_fmtNat m
      have h2 : '-' :: fmtNat (n + 1) = fmtNat m := h
      rw [← h2]
      exact List.mem_cons_self _ _
    | negSucc m =>
      have h2 : '-' :: fmtNat (n + 1) = '-' :: fmtNat (m + 1) := h
      have h3 : n + 1 = m + 1 := fmtNat_injective _ _ (List.cons_injective h2)
      have : n = m := by omega
      rw [this]

theorem fmt02d_two_digits (n : Nat) (h : n < 100) :
    fmt02d (n : Int) = [Nat.digitChar (n / 10), Nat.digitChar (n % 10)] := by
  interval_cases n <;> rfl

theorem fmt02d_injective (n m : Nat) (hn : n < 100) (hm : m < 100)
    (h : fmt02d (n : Int) = fmt02d (m : Int)) : n = m := by
  rw [fmt02d_two_digits n hn, fmt02d_two_digits m hm] at h
  simp only [List.cons.injEq, and_true] at h
  have h1 := congrArg charVal h.1
  have h2 := congrArg charVal h.2
  rw [charVal_digitChar _ (by omega), charVal_digitChar _ (by omega)] at h1
  rw [charVal_digitChar _ (Nat.mod_lt n (by decide)),
    charVal_digitChar _ (Nat.mod_lt m (by decide))] at h2
  omega

/-! ## The output file name as a function of the clock -/

theorem fmt02d_isDigit (n : Nat) : ∀ c ∈ fmt02d (n : Int), c.isDigit = true := by
  intro c hc
  have hc2 : c ∈ (if (fmtNat n).length < 2 then '0' :: fmtNat n else fmtNat n) := hc
  split_ifs at hc2
  · rcases List.mem_cons.mp hc2 with h | h
    · rw [h]
      decide
    · exact fmtNat_isDigit n c h
  · exact fmtNat_isDigit n c hc2

theorem underscore_not_mem_fmt02d (n : Nat) : '_' ∉ fmt02d (n : Int) := by
  intro h
  have := fmt02d_isDigit n _ h
  revert this
  decide

theorem underscore_not_mem_fmtD (i : Int) : '_' ∉ fmtD i := by
  intro h
  cases i with
  | ofNat n =>
    have := fmtNat_isDigit n _ h
    revert this
    decide
  | negSucc n =>
    rcases List.mem_cons.mp h with h1 | h1
    · revert h1
      decide
    · have := fmtNat_isDigit (n + 1) _ h1
      revert this
      decide

theorem split_at_separator (a : Char) (l1 l2 r1 r2 : List Char) (h1 : a ∉ l1) (h2 : a ∉ l2)
    (h : l1 ++ a :: r1 = l2 ++ a :: r2) : l1 = l2 ∧ r1 = r2 := by
  induction l1 generalizing l2 with
  | nil =>
    cases l2 with
    | nil => simpa using h
    | cons b l2 =>
      exfalso
      simp only [List.nil_append, List.cons_append, List.cons.injEq] at h
      exact h2 (by rw [h.1]; exact List.mem_cons_self _ _)
  | cons c l1 ih =>
    cases l2 with
    | nil =>
      exfalso
      simp only [List.nil_append, List.cons_append, List.cons.injEq] at h
      exact h1 (by rw [← h.1]; exact List.mem_cons_self _ _)
    | cons b l2 =>
      simp only [List.cons_append, List.cons.injEq] at h
      obtain ⟨hl, hr⟩ := ih l2 (fun hm => h1 (List.mem_cons_of_mem _ hm))
        (fun hm => h2 (List.mem_cons_of_mem _ hm)) h.2
      exact ⟨by rw [h.1, hl], hr⟩

theorem fmt02d_length (n : Nat) (h : n < 100) : (fmt02d (n : Int)).length = 2 := by
  rw [fmt02d_two_digits n h]
  rfl

theorem outputFilename_eq_iff (t1 t2 : GoTime) (h1 : validTime t1) (h2 : validTime t2) :
    outputFilename t1 = outputFilename t2 ↔ sameSecond t1 t2 := by
  obtain ⟨_, hm1, _, hd1, hh1, hmi1, hs1⟩ := h1
  obtain ⟨_, hm2, _, hd2, hh2, hmi2, hs2⟩ := h2
  constructor
  · intro h
    have hd := congrArg String.data h
    simp only [outputFilename] at hd
    have hnot1 : '_' ∉ fmtD t1.year ++ fmt02d t1.month ++ fmt02d t1.day := by
      simp only [List.mem_append, not_or]
      exact ⟨⟨underscore_not_mem_fmtD _, underscore_not_mem_fmt02d _⟩,
        underscore_not_mem_fmt02d _⟩
    have hnot2 : '_' ∉ fmtD t2.year ++ fmt02d t2.month ++ fmt02d t2.day := by
      simp only [List.mem_append, not_or]
      exact ⟨⟨underscore_not_mem_fmtD _, underscore_not_mem_fmt02d _⟩,
        underscore_not_mem_fmt02d _⟩
    obtain ⟨hleft, hright⟩ := split_at_separator '_' _ _ _ _ hnot1 hnot2 hd
    obtain ⟨hym, hday⟩ := List.append_inj' hleft
      (by rw [fmt02d_length _ (by omega), fmt02d_length _ (by omega)])
    obtain ⟨hyear, hmonth⟩ := List.append_inj' hym
      (by rw [fmt02d_length _ (by omega), fmt02d_length _ (by omega)])
    rw [List.append_assoc, List.append_assoc, List.append_assoc, List.append_assoc] at hright
    obtain ⟨hhour, hrest⟩ := List.append_inj hright
      (by rw [fmt02d_length _ (by omega), fmt02d_length _ (by omega)])
    obtain ⟨hmin, hrest2⟩ := List.append_inj hrest
      (by rw [fmt02d_length _ (by omega), fmt02d_length _ (by omega)])
    obtain ⟨hsec, _⟩ := List.append_inj hrest2
      (by rw [fmt02d_length _ (by omega), fmt02d_length _ (by omega)])
    exact ⟨fmtD_injective _ _ hyear, fmt02d_injective _ _ (by omega) (by omega) hmonth,
      fmt02d_injective _ _ (by omega) (by omega) hday,
      fmt02d_injective _ _ (by omega) (by omega) hhour,
      fmt02d_injective _ _ (by omega) (by omega) hmin,
      fmt02d_injective _ _ (by omega) (by omega) hsec⟩
  · rintro ⟨hy, hm, hd, hh, hmi, hs⟩
    simp only [outputFilename, hy, hm, hd, hh, hmi, hs]

/-- C6 fails as stated: two clock readings one nanosecond apart, in the same
calendar second, give two conversions the same output file name. -/
theorem ConvertToSilk_same_name_within_second :
    demoTime.unixNano ≠ demoTimeLater.unixNano ∧
    (ConvertToSilk demoService (demoEnvAt demoTime toolsSucceed) (Input.bytes [82, 73, 70, 70])
        emptyFS).ret = Except.ok "20240307_090501.silk" ∧
    (ConvertToSilk demoService (demoEnvAt demoTimeLater toolsSucceed)
        (Input.bytes [82, 73, 70, 70]) emptyFS).ret = Except.ok "20240307_090501.silk" := by
  decide

/-- C6 amended: the output file name is a function of the calendar second of
the local clock reading, injective on it: two conversions that return file
names return distinct names exactly when their clock readings differ in the
year, month, day, hour, minute or second. -/
theorem ConvertToSilk_names_distinct_iff (s1 s2 : AudioService) (env1 env2 : Env)
    (input1 input2 : Input) (fs1 fs2 : FS) (name1 name2 : String)
    (hv1 : validTime env1.nowOutput) (hv2 : validTime env2.nowOutput)
    (h1 : (ConvertToSilk s1 env1 input1 fs1).ret = Except.ok name1)
    (h2 : (ConvertToSilk s2 env2 input2 fs2).ret = Except.ok name2) :
    name1 ≠ name2 ↔ ¬ sameSecond env1.nowOutput env2.nowOutput := by
  rw [(ConvertToSilk_ok_inv s1 env1 input1 fs1 name1 h1).1,
    (ConvertToSilk_ok_inv s2 env2 input2 fs2 name2 h2).1]
  exact not_congr (outputFilename_eq_iff _ _ hv1 hv2)

theorem ConvertToSilk_names_distinct_iff_witness :
    validTime demoTime ∧ validTime demoTimeNextSecond ∧
    (ConvertToSilk demoService (demoEnvAt demoTime toolsSucceed) (Input.bytes [82, 73, 70, 70])
        emptyFS).ret = Except.ok "20240307_090501.silk" ∧
    (ConvertToSilk demoService (demoEnvAt demoTimeNextSecond toolsSucceed)
        (Input.bytes [82, 73, 70, 70]) emptyFS).ret = Except.ok "20240307_090502.silk" ∧
    (("20240307_090501.silk" : String) ≠ "20240307_090502.silk" ↔
      ¬ sameSecond demoTime demoTimeNextSecond) :=
  ⟨by decide, by decide, by decide, by decide,
    ConvertToSilk_names_distinct_iff demoService demoService (demoEnvAt demoTime toolsSucceed)
      (demoEnvAt demoTimeNextSecond toolsSucceed) (Input.bytes [82, 73, 70, 70])
      (Input.bytes [82, 73, 70, 70]) emptyFS emptyFS "20240307_090501.silk"
      "20240307_090502.silk" (by decide) (by decide) (by decide) (by decide)⟩

/-! ## The transcoder command -/

/-- C11: whenever `ConvertToSilk` starts a command, the first one is the
transcoder at `FfmpegPath` with exactly the arguments `-i inputPath -f s16le
-acodec pcm_s16le -ar 24000 -ac 1 pcmPath`, where `inputPath` is the resolved
input path, passed unchanged, and `pcmPath` is the intermediate PCM path. -/
theorem ConvertToSilk_transcoder_args (s : AudioService) (env : Env) (input : Input) (fs : FS)
    (inputPath : String) (fs1 : FS)
    (hres : resolveInput s env input fs = (Except.ok inputPath, fs1))
    (hstarted : (ConvertToSilk s env input fs).started ≠ []) :
    (ConvertToSilk s env input fs).started.head? =
      some ⟨s.FfmpegPath, ["-i", inputPath, "-f", "s16le", "-acodec", "pcm_s16le",
        "-ar", "24000", "-ac", "1", filepathJoin s.UploadDir (pcmFilename env.nowPcm)]⟩ := by
  unfold ConvertToSilk at hstarted ⊢
  rw [hres] at hstarted ⊢
  simp only at hstarted ⊢
  generalize env.run (ffmpegCmd s inputPath (filepathJoin s.UploadDir (pcmFilename env.nowPcm)))
    fs1 = o at hstarted ⊢
  cases o with
  | stdoutPipeErr => simp at hstarted
  | stderrPipeErr => simp at hstarted
  | startErr => simp at hstarted
  | waitErr fs2 => rfl
  | exited fs2 =>
    simp only
    generalize env.run (encoderCmd s env (filepathJoin s.UploadDir (pcmFilename env.nowPcm))
      (filepathJoin s.SilkDir (outputFilename env.nowOutput))) fs2 = o2
    cases o2 with
    | stdoutPipeErr => rfl
    | stderrPipeErr => rfl
    | startErr => rfl
    | waitErr fs3 => rfl
    | exited fs3 =>
      simp only
      split_ifs <;> rfl

theorem ConvertToSilk_transcoder_args_witness :
    resolveInput demoService (demoEnv httpOk toolsSucceed) (Input.str "/data/in.mp3")
        (fsCreate emptyFS "/data/in.mp3") =
      (Except.ok "/data/in.mp3", fsCreate emptyFS "/data/in.mp3") ∧
    (ConvertToSilk demoService (demoEnv httpOk toolsSucceed) (Input.str "/data/in.mp3")
        (fsCreate emptyFS "/data/in.mp3")).started ≠ [] ∧
    (ConvertToSilk demoService (demoEnv httpOk toolsSucceed) (Input.str "/data/in.mp3")
        (fsCreate emptyFS "/data/in.mp3")).started.head? =
      some ⟨"/usr/bin/ffmpeg", ["-i", "/data/in.mp3", "-f", "s16le", "-acodec", "pcm_s16le",
        "-ar", "24000", "-ac", "1", "/srv/uploads/1709802301000000000.pcm"]⟩ :=
  ⟨rfl, by decide,
    ConvertToSilk_transcoder_args demoService (demoEnv httpOk toolsSucceed)
      (Input.str "/data/in.mp3") (fsCreate emptyFS "/data/in.mp3") "/data/in.mp3"
      (fsCreate emptyFS "/data/in.mp3") rfl (by decide)⟩

/-! ## Joining a directory and a plain file name -/

theorem splitSlash_ne_nil (l : List Char) : splitSlash l ≠ [] := by
  cases l with
  | nil => simp [splitSlash]
  | cons c cs =>
    rw [splitSlash]
    split
    · simp
    · split_ifs <;> simp

theorem splitSlash_plain (a : List Char) (h : '/' ∉ a) : splitSlash a = [a] := by
  induction a with
  | nil => rfl
  | cons c cs ih =>
    have hc : c ≠ '/' := fun e => h (by rw [e]; exact List.mem_cons_self _ _)
    have hcs : '/' ∉ cs := fun m => h (List.mem_cons_of_mem _ m)
    rw [splitSlash, ih hcs]
    simp [hc]

theorem splitSlash_append_name (d a : List Char) (h : '/' ∉ a) :
    splitSlash (d ++ '/' :: a) = splitSlash d ++ [a] := by
  induction d with
  | nil =>
    simp [splitSlash, splitSlash_plain a h]
  | cons c cs ih =>
    rw [List.cons_append, splitSlash, ih]
    obtain ⟨x, xs, hx⟩ := List.exists_cons_of_ne_nil (splitSlash_ne_nil cs)
    rw [splitSlash, hx]
    simp only [List.cons_append]
    split_ifs <;> rfl

theorem cleanStep_plain (rooted : Bool) (out : List (List Char)) (a : List Char)
    (h : plainName a) : cleanStep rooted out a = a :: out := by
  obtain ⟨_, h0, h1, h2⟩ := h
  unfold cleanStep
  rw [if_neg (by simp [h0, h1]), if_neg h2]

theorem joinSlash_append_name (ys : List (List Char)) :
    ∃ pre, ∀ a, joinSlash (ys ++ [a]) = pre ++ a := by
  induction ys with
  | nil => exact ⟨[], fun a => rfl⟩
  | cons y ys ih =>
    obtain ⟨pre, hpre⟩ := ih
    refine ⟨y ++ '/' :: pre, fun a => ?_⟩
    cases ys with
    | nil =>
      have := hpre a
      simp only [List.nil_append, joinSlash] at this
      simp only [List.cons_append, List.nil_append, joinSlash, List.append_assoc]
      rw [← this]
    | cons z zs =>
      have := hpre a
      simp only [List.cons_append] at this ⊢
      rw [joinSlash, this]
      simp

theorem filepathClean_dir_name (d : List Char) (hd : d ≠ []) :
    ∃ pre, ∀ a, plainName a → filepathClean (d ++ '/' :: a) = pre ++ a := by
  obtain ⟨pre, hpre⟩ := joinSlash_append_name
    ((splitSlash d).foldl (cleanStep (d.head? == some '/')) []).reverse
  refine ⟨(if (d.head? == some '/') = true then '/' :: pre else pre), fun a ha => ?_⟩
  have hhead : (d ++ '/' :: a).head? = d.head? := by
    cases d with
    | nil => exact absurd rfl hd
    | cons c cs => rfl
  unfold filepathClean
  simp only [hhead, splitSlash_append_name d a ha.1, List.foldl_append, List.foldl_cons,
    List.foldl_nil, cleanStep_plain _ _ a ha, List.reverse_cons, hpre]
  have hne : pre ++ a ≠ [] := by
    intro h
    exact ha.2.1 (List.append_eq_nil.mp h).2
  cases hr : (d.head? == some '/') with
  | true => simp
  | false => simp [hne]

theorem filepathJoin_plain_injective (dir : String) (a b : List Char) (ha : plainName a)
    (hb : plainName b) (h : filepathJoin dir ⟨a⟩ = filepathJoin dir ⟨b⟩) : a = b := by
  have hane : (⟨a⟩ : String) ≠ "" := fun e => ha.2.1 (congrArg String.data e)
  have hbne : (⟨b⟩ : String) ≠ "" := fun e => hb.2.1 (congrArg String.data e)
  unfold filepathJoin at h
  by_cases hdir : dir = ""
  · simp only [hdir, if_true, hane, hbne, if_false] at h
    have h := congrArg String.data h
    simp only at h
    have hca : filepathClean a = a := by
      unfold filepathClean
      have hh : (a.head? == some '/') = false := by
        cases a with
        | nil => rfl
        | cons c cs =>
          have hc : c ≠ '/' := fun e => ha.1 (by rw [e]; exact List.mem_cons_self _ _)
          simp [hc]
      simp [hh, splitSlash_plain a ha.1, cleanStep_plain _ _ a ha, joinSlash, ha.2.1]
    have hcb : filepathClean b = b := by
      unfold filepathClean
      have hh : (b.head? == some '/') = false := by
        cases b with
        | nil => rfl
        | cons c cs =>
          have hc : c ≠ '/' := fun e => hb.1 (by rw [e]; exact List.mem_cons_self _ _)
          simp [hc]
      simp [hh, splitSlash_plain b hb.1, cleanStep_plain _ _ b hb, joinSlash, hb.2.1]
    rw [hca, hcb] at h
    exact h
  · simp only [hdir, if_false, hane, hbne] at h
    have h := congrArg String.data h
    simp only at h
    have hd : dir.data ≠ [] := fun e => hdir (String.ext e)
    obtain ⟨pre, hpre⟩ := filepathClean_dir_name dir.data hd
    rw [hpre a ha, hpre b hb] at h
    exact List.append_cancel_left h

/-! ## The intermediate PCM file name -/

theorem pcmFilename_plain (t : GoTime) : plainName (pcmFilename t).data := by
  have hlen : (fmtD t.unixNano ++ ".pcm".data).length = (fmtD t.unixNano).length + 4 := by
    rw [List.length_append]
    rfl
  refine ⟨?_, ?_, ?_, ?_⟩
  · intro hmem
    simp only [pcmFilename, List.mem_append] at hmem
    rcases hmem with h | h
    · have := fmtD_nameChar _ _ h
      revert this
      decide
    · revert h
      decide
  · intro h
    have := congrArg List.length h
    simp only [pcmFilename] at this
    rw [hlen] at this
    simp at this
  · intro h
    have := congrArg List.length h
    simp only [pcmFilename] at this
    rw [hlen] at this
    simp at this
  · intro h
    have := congrArg List.length h
    simp only [pcmFilename] at this
    rw [hlen] at this
    simp at this

/-- C13: the PCM file name is an injective function of the nanosecond clock
reading: two readings with distinct `UnixNano` values (any integers, so any
two int64 values) give distinct names `<n>.pcm`, and distinct PCM paths in the
upload directory of a service. -/
theorem pcmFilename_injective (s : AudioService) (t1 t2 : GoTime)
    (h : t1.unixNano ≠ t2.unixNano) :
    pcmFilename t1 ≠ pcmFilename t2 ∧
      filepathJoin s.UploadDir (pcmFilename t1) ≠ filepathJoin s.UploadDir (pcmFilename t2) := by
  have hname : pcmFilename t1 ≠ pcmFilename t2 := by
    intro heq
    have hd := congrArg String.data heq
    simp only [pcmFilename] at hd
    exact h (fmtD_injective _ _ (List.append_inj' hd rfl).1)
  refine ⟨hname, ?_⟩
  intro heq
  apply hname
  have := filepathJoin_plain_injective s.UploadDir (pcmFilename t1).data (pcmFilename t2).data
    (pcmFilename_plain t1) (pcmFilename_plain t2) heq
  exact String.ext this

theorem pcmFilename_injective_witness :
    demoTime.unixNano ≠ demoTimeLater.unixNano ∧
    pcmFilename demoTime = "1709802301000000000.pcm" ∧
    pcmFilename demoTimeLater = "1709802301000000001.pcm" ∧
    pcmFilename demoTime ≠ pcmFilename demoTimeLater ∧
    filepathJoin demoService.UploadDir (pcmFilename demoTime) ≠
      filepathJoin demoService.UploadDir (pcmFilename demoTimeLater) :=
  ⟨by decide, by decide, by decide,
    (pcmFilename_injective demoService demoTime demoTimeLater (by decide)).1,
    (pcmFilename_injective demoService demoTime demoTimeLater (by decide)).2⟩

/-! ## Cleaning old log files -/

theorem logFileName_leading_text (t : GoTime) :
    stringsHasPrefix (logFileName t) "audio_converter_" = true := by
  unfold stringsHasPrefix logFileName
  rw [List.isPrefixOf_iff_prefix]
  exact List.prefix_append _ _

theorem logFileName_trailing_text (t : GoTime) :
    stringsHasSuffix (logFileName t) ".log" = true := by
  unfold stringsHasSuffix logFileName
  rw [List.isPrefixOf_iff_prefix, List.reverse_prefix]
  refine ⟨"audio_converter_".data ++ (fmtYear t.year ++ '-' :: (fmtPadded 2 t.month ++
    '-' :: fmtPadded 2 t.day)), ?_⟩
  simp

theorem cleanLogEntry_of_removeOk (removeOk : String → Bool) (hok : ∀ p, removeOk p = true)
    (cutoff : Int) (logDir : String) (st : List DirEntry × Nat) (f : DirEntry) :
    cleanLogEntry removeOk cutoff logDir st f =
      if logExpired cutoff f = true then (st.1.filter (fun e => e.name != f.name), st.2 + 1)
      else st := by
  unfold cleanLogEntry logExpired
  cases hd : f.isDir with
  | true => simp
  | false =>
    cases hp : stringsHasPrefix f.name "audio_converter_" with
    | false => simp
    | true =>
      cases hm : f.modTime with
      | none => simp
      | some mt =>
        by_cases h : mt < cutoff
        · simp [hok, h]
        · simp [h]

theorem foldl_cleanLogEntry (removeOk : String → Bool) (hok : ∀ p, removeOk p = true)
    (cutoff : Int) (logDir : String) (l : List DirEntry) (st : List DirEntry × Nat) :
    l.foldl (cleanLogEntry removeOk cutoff logDir) st =
      (st.1.filter (fun e => !(l.any (fun f => logExpired cutoff f && f.name == e.name))),
        st.2 + (l.filter (logExpired cutoff)).length) := by
  induction l generalizing st with
  | nil => simp
  | cons f l ih =>
    rw [List.foldl_cons, ih, cleanLogEntry_of_removeOk removeOk hok]
    by_cases hf : logExpired cutoff f = true
    · simp only [hf, if_true, List.filter_filter, List.any_cons, Bool.true_and,
        List.filter_cons_of_pos, List.length_cons]
      refine Prod.ext ?_ (by simp only; omega)
      simp only
      apply List.filter_congr
      intro e _
      cases h1 : (f.name == e.name) with
      | true =>
        have : (e.name != f.name) = false := by
          rw [beq_iff_eq] at h1
          simp [h1]
        simp [this]
      | false =>
        have : (e.name != f.name) = true := by
          rw [bne_iff_ne]
          intro h
          rw [h] at h1
          simp at h1
        simp [this]
    · have hf2 : logExpired cutoff f = false := by simpa using hf
      simp [hf2]

/-- C12 fails as stated: `audio_converter_backup.zip` does not end in `.log`, so
it is not a name of the form `audio_converter_<date>.log`, yet `CleanOldLogs`
removes it once it is older than seven days. -/
theorem CleanOldLogs_removes_non_log_file :
    stringsHasSuffix "audio_converter_backup.zip" ".log" = false ∧
    CleanOldLogs addDateFixedOffset (fun _ => true) tenDays "./logs"
        (some [⟨"audio_converter_backup.zip", false, some 0⟩, ⟨"notes.txt", false, some 0⟩])
        [⟨"audio_converter_backup.zip", false, some 0⟩, ⟨"notes.txt", false, some 0⟩] =
      (none, [⟨"notes.txt", false, some 0⟩], 1) := by
  decide

/-- C12 amended: when every removal succeeds, `CleanOldLogs` returns nil and
leaves in the directory exactly the listed entries that are directories, or
whose name does not start with `audio_converter_`, or whose modification time
is not before `now.AddDate(0, 0, -7)` or cannot be read; the removed entries
are the other ones, and every name `InitLogger` produces starts with that
text and ends in `.log`. -/
theorem CleanOldLogs_removes_exactly (addDate : Int → Int → Int → Int → Int)
    (removeOk : String → Bool) (now : Int) (logDir : String) (entries : List DirEntry)
    (hok : ∀ p, removeOk p = true) (hnames : (entries.map DirEntry.name).Nodup) :
    CleanOldLogs addDate removeOk now logDir (some entries) entries =
        (none, entries.filter (fun e => !(logExpired (addDate now 0 0 (-7)) e)),
          (entries.filter (logExpired (addDate now 0 0 (-7)))).length) ∧
      (∀ e ∈ entries,
        (e ∈ (CleanOldLogs addDate removeOk now logDir (some entries) entries).2.1 ↔
          (e.isDir = true ∨ stringsHasPrefix e.name "audio_converter_" = false ∨
            ∀ mt, e.modTime = some mt → addDate now 0 0 (-7) ≤ mt))) ∧
      (∀ t, stringsHasPrefix (logFileName t) "audio_converter_" = true ∧
        stringsHasSuffix (logFileName t) ".log" = true) := by
  have hmain : CleanOldLogs addDate removeOk now logDir (some entries) entries =
      (none, entries.filter (fun e => !(logExpired (addDate now 0 0 (-7)) e)),
        (entries.filter (logExpired (addDate now 0 0 (-7)))).length) := by
    simp only [CleanOldLogs]
    rw [foldl_cleanLogEntry removeOk hok]
    simp only [Nat.zero_add]
    congr 2
    apply List.filter_congr
    intro e he
    congr 1
    cases hx : logExpired (addDate now 0 0 (-7)) e with
    | true =>
      rw [List.any_eq_true]
      exact ⟨e, he, by simp [hx]⟩
    | false =>
      rw [List.any_eq_false]
      intro f hf hcontra
      rw [Bool.and_eq_true, beq_iff_eq] at hcontra
      have hfe : f = e := List.inj_on_of_nodup_map hnames hf he hcontra.2
      rw [hfe, hx] at hcontra
      exact Bool.false_ne_true hcontra.1
  refine ⟨hmain, ?_, fun t => ⟨logFileName_leading_text t, logFileName_trailing_text t⟩⟩
  intro e he
  rw [hmain]
  simp only [List.mem_filter]
  unfold logExpired
  cases hd : e.isDir with
  | true => simp [he]
  | false =>
    cases hp : stringsHasPrefix e.name "audio_converter_" with
    | false => simp [he]
    | true =>
      cases hm : e.modTime with
      | none => simp [he]
      | some mt => simp [he]

theorem CleanOldLogs_removes_exactly_witness :
    (∀ p, (fun _ => true : String → Bool) p = true) ∧
    (([⟨"audio_converter_1970-01-01.log", false, some 0⟩,
        ⟨"audio_converter_1970-01-09.log", false, some 691200000000000⟩,
        ⟨"notes.txt", false, some 0⟩] : List DirEntry).map DirEntry.name).Nodup ∧
    CleanOldLogs addDateFixedOffset (fun _ => true) tenDays "./logs"
        (some [⟨"audio_converter_1970-01-01.log", false, some 0⟩,
          ⟨"audio_converter_1970-01-09.log", false, some 691200000000000⟩,
          ⟨"notes.txt", false, some 0⟩])
        [⟨"audio_converter_1970-01-01.log", false, some 0⟩,
          ⟨"audio_converter_1970-01-09.log", false, some 691200000000000⟩,
          ⟨"notes.txt", false, some 0⟩] =
      (none, [⟨"audio_converter_1970-01-09.log", false, some 691200000000000⟩,
        ⟨"notes.txt", false, some 0⟩], 1) :=
  ⟨fun _ => rfl, by decide,
    (CleanOldLogs_removes_exactly addDateFixedOffset (fun _ => true) tenDays "./logs"
      [⟨"audio_converter_1970-01-01.log", false, some 0⟩,
        ⟨"audio_converter_1970-01-09.log", false, some 691200000000000⟩,
        ⟨"notes.txt", false, some 0⟩] (fun _ => rfl) (by decide)).1.trans (by decide)⟩

end AudioConverter
